import Mathlib

/-!
Verification of ZenTools.py (mtpy.usgs): the Zen3D raw-stream decoder and the
ZenCache multi-channel container codec.

Python byte strings are modelled as `List Nat` (each element a byte value),
numpy float arithmetic as exact rationals (noted where rounding could differ),
and Python exceptions as an explicit error type threaded through `Except`.
-/

set_option maxHeartbeats 1000000
set_option maxRecDepth 10000

deriving instance DecidableEq for Except

namespace ZenTools

/-- Python exceptions raised (or modelled) by the code under verification. -/
inductive PyExc where
  /-- IOError: navigation lengths in data block are not equal (line 1184) -/
  | ioNavLen : PyExc
  /-- IOError: meta lengths in data blocks are not equal (line 1207) -/
  | ioMetaLen : PyExc
  /-- IOError: cal lengths in data blocks are not equal (line 1227) -/
  | ioCalLen : PyExc
  /-- IOError: ts lengths in data blocks are not equal (line 1251) -/
  | ioTsLen : PyExc
  /-- numpy ValueError from np.fromstring on a size that is not a multiple
      of the item size, or from an array truth-value/assignment mismatch -/
  | valueError : PyExc
  /-- numpy ValueError from reshape when the flat length is not divisible
      by the requested column count (line 1243) -/
  | reshapeError : PyExc
  /-- KeyError on a missing dict key -/
  | keyError : PyExc
  /-- TypeError (e.g. dict indexed with a slice, or gmtime of an array) -/
  | typeError : PyExc
  /-- IndexError on string indexing out of range -/
  | indexError : PyExc
  /-- ZeroDivisionError -/
  | zeroDivision : PyExc
  /-- IOError from check_sampling_rate (line 958) -/
  | ioSamplingRate : PyExc
  /-- ZenGPSError (line 304): scheduled start, last estimate, tolerance -/
  | gpsTiming (sched : List Nat) (estimate : List Nat) (tol : Nat) : PyExc
  /-- artifact of the shallow embedding: loop fuel exhausted (the Python
      loops in question always terminate within the fuel provided) -/
  | fuelExhausted : PyExc
  deriving DecidableEq, Repr

/-- The spec's `FormatIntegrityError` taxon (spec section 7): a container
frame length mismatch, or a sample count not divisible by the channel
count.  In the code the former four are `IOError` raises inside
`ZenCache.read_cache` and the latter is the numpy reshape `ValueError`. -/
def isFormatIntegrityError : PyExc → Prop
  | .ioNavLen => True
  | .ioMetaLen => True
  | .ioCalLen => True
  | .ioTsLen => True
  | .reshapeError => True
  | _ => False

instance (e : PyExc) : Decidable (isFormatIntegrityError e) := by
  cases e <;> simp [isFormatIntegrityError] <;> infer_instance

/-! ## Python string primitives on byte lists -/

/-- ASCII bytes of a Lean string literal (all source strings are ASCII). -/
def bs (s : String) : List Nat := s.data.map Char.toNat

/-- Python slice `xs[i:j]` with full negative-index semantics. -/
def pySlice (xs : List Nat) (i j : Int) : List Nat :=
  let n : Int := xs.length
  let i2 := if i < 0 then max (n + i) 0 else min i n
  let j2 := if j < 0 then max (n + j) 0 else min j n
  (xs.take j2.toNat).drop i2.toNat

/-- Python single-character indexing `xs[i]` (negative wraps; IndexError
outside the range). -/
def pyCharAt (xs : List Nat) (i : Int) : Except PyExc Nat :=
  let i2 := if i < 0 then i + xs.length else i
  if h : 0 ≤ i2 ∧ i2 < xs.length then
    .ok (xs.get ⟨i2.toNat, by omega⟩)
  else
    .error .indexError

/-- Python `str.split(sep)` for a one-byte separator: no collapsing of
adjacent separators, and the empty string splits to `[ [] ]`. -/
def pySplit (xs : List Nat) (sep : Nat) : List (List Nat) :=
  match xs with
  | [] => [[]]
  | x :: rest =>
    let r := pySplit rest sep
    if x = sep then [] :: r
    else match r with
      | [] => [[x]]
      | h :: t => (x :: h) :: t

/-- Helper for Python `str.find`: scan from index `i`, fuel-bounded. -/
def findFromGo (hay needle : List Nat) : Nat → Nat → Int
  | 0, _ => -1
  | fuel + 1, i =>
    if hay.length < i + needle.length then -1
    else if needle.isPrefixOf (hay.drop i) then (i : Int)
    else findFromGo hay needle fuel (i + 1)

/-- First index `i ≥ start` at which `needle` occurs in `hay`, else `-1`
(the fuel `hay.length + 1` always suffices for a nonempty needle). -/
def findFrom (hay needle : List Nat) (i : Nat) : Int :=
  findFromGo hay needle (hay.length + 1) i

/-- Python `hay.find(needle, start)`; `start = none` means from 0. -/
def strFind (hay needle : List Nat) (start : Option Int) : Int :=
  match start with
  | none => findFrom hay needle 0
  | some s =>
    let s2 : Int := if s < 0 then max (s + hay.length) 0 else s
    findFrom hay needle s2.toNat

/-! ## struct little-endian encode / numpy fromstring decode -/

/-- `struct.pack('<i', v)` for a signed 32-bit value (two's complement). -/
def encI32 (v : Int) : List Nat :=
  let u := (v % 4294967296).toNat
  [u % 256, u / 256 % 256, u / 65536 % 256, u / 16777216 % 256]

/-- `struct.pack('<h', v)` for a signed 16-bit value. -/
def encI16 (v : Int) : List Nat :=
  let u := (v % 65536).toNat
  [u % 256, u / 256 % 256]

/-- Decode 4 little-endian bytes as a signed 32-bit integer. -/
def decI32 (b : List Nat) : Int :=
  let u : Nat := b.getD 0 0 + 256 * b.getD 1 0 + 65536 * b.getD 2 0
                 + 16777216 * b.getD 3 0
  if u < 2147483648 then (u : Int) else (u : Int) - 4294967296

/-- Decode 2 little-endian bytes as a signed 16-bit integer. -/
def decI16 (b : List Nat) : Int :=
  let u : Nat := b.getD 0 0 + 256 * b.getD 1 0
  if u < 32768 then (u : Int) else (u : Int) - 65536

/-- `np.fromstring(s, dtype=np.int32)` on a byte string whose length is a
multiple of 4 (the caller checks the length). -/
def decI32List : List Nat → List Int
  | b0 :: b1 :: b2 :: b3 :: rest => decI32 [b0, b1, b2, b3] :: decI32List rest
  | _ => []

/-- A signed byte as read by `np.fromstring(s, dtype=np.int8)`. -/
def byteToI8 (b : Nat) : Int :=
  if b % 256 < 128 then (b % 256 : Int) else (b % 256 : Int) - 256

/-- numpy `reshape(n/num_chn, num_chn)`: split a flat list into rows. -/
def chunkRows (n : Nat) : List Int → List (List Int)
  | [] => []
  | l =>
    if h : n = 0 ∨ l.length < n then []
    else
      have : l.length - n < l.length := by
        rcases l with _ | ⟨x, xs⟩
        · simp at h
        · simp only [not_or, not_lt] at h; omega
      l.take n :: chunkRows n (l.drop n)
  termination_by l => l.length
  decreasing_by simpa using this

/-- Decimal digits (ASCII) of a natural number, as produced by
Python `'{0}'.format(n)` / `str(n)`. -/
def natDecGo : Nat → Nat → List Nat
  | 0, _ => []
  | fuel + 1, n => if n < 10 then [48 + n] else natDecGo fuel (n / 10) ++ [48 + n % 10]

def natDec (n : Nat) : List Nat := natDecGo (n + 1) n

/-- Python `'{0:02}'.format(n)`. -/
def fmt02 (n : Nat) : List Nat := if n < 10 then [48, 48 + n] else natDec n

/-- Parse an all-digit byte string as a natural number (`int(s)` for the
strings arising here); fails on empty or non-digit input. -/
def parseDigits : List Nat → Except PyExc Nat
  | [] => .error .valueError
  | l => go l 0
where go : List Nat → Nat → Except PyExc Nat
  | [], acc => .ok acc
  | c :: rest, acc =>
    if 48 ≤ c ∧ c ≤ 57 then go rest (acc * 10 + (c - 48))
    else .error .valueError

/-- Python `str.upper()` on a byte. -/
def byteUpper (b : Nat) : Nat := if 97 ≤ b ∧ b ≤ 122 then b - 32 else b

/-! ## Zen3D.get_gps_time (ZenTools.py lines 607-641)

Floats are modelled as exact rationals; the float literal `1.024` is the
rational 128/125 (the one-ulp float rounding of the products involved does
not affect any property proved below). -/

/-- `Zen3D._week_len` (line 122). -/
def week_len : ℚ := 604800

/-- `Zen3D.get_gps_time(gps_int, gps_week=0)`: seconds from the counter,
with the rollover branch `if gps_seconds > self._week_len` (line 634). -/
def get_gps_time (gps_int : ℚ) (gps_week : Int := 0) : ℚ :=
  let gps_seconds : ℚ := gps_int / 1024
  let gps_ms : ℚ := (gps_seconds - ⌊gps_int / 1024⌋) * (128 / 125)
  if gps_seconds > week_len then
    ((⌊gps_seconds - week_len⌋ : ℚ) + gps_ms + ((gps_week + 1 : Int) : ℚ) * week_len)
  else
    ((⌊gps_seconds⌋ : ℚ) + gps_ms + 0)

/-- The local pair `(gps_week, gps_seconds)` right after the rollover
branch of `get_gps_time` (lines 633-637), exposing the week increment and
the seconds wrap, which the function itself folds back into its return
value via `cc`. -/
def get_gps_time_rollover (gps_int : ℚ) (gps_week : Int) : Int × ℚ :=
  let gps_seconds : ℚ := gps_int / 1024
  if gps_seconds > week_len then (gps_week + 1, gps_seconds - week_len)
  else (gps_week, gps_seconds)

/-! ## ZenCache.write_cache_file: the time-series frame rows
(ZenTools.py lines 1127-1141). -/

/-- One row of the time-series frame: `struct.pack('<'+'i'*n_fn, *row)`
when every value packs as an int32; on `struct.error` the per-value
fallback writes `struct.pack('<i', np.sign(row[nn]*2.14e9))` for values of
magnitude above 2.14e9 and packs the rest normally. -/
def packRowTs (row : List Int) : List Nat :=
  if ∀ v ∈ row, -2147483648 ≤ v ∧ v < 2147483648 then
    (row.map encI32).flatten
  else
    (row.map (fun v =>
      if 2140000000 < |v| then encI32 v.sign else encI32 v)).flatten

/-! ## Basic lemmas about the byte-string primitives -/

theorem pySlice_natIdx (xs : List Nat) (a b : Nat) :
    pySlice xs a b = (xs.drop a).take (b - a) := by
  dsimp only [pySlice]
  rw [if_neg (Int.not_lt.mpr (Int.natCast_nonneg a)),
      if_neg (Int.not_lt.mpr (Int.natCast_nonneg b))]
  have hmin : ∀ k : Nat, (min (k : Int) ((xs.length : Nat) : Int)).toNat = min k xs.length := by
    intro k; omega
  rw [hmin, hmin]
  rcases le_or_lt a xs.length with ha | ha
  · rw [min_eq_left ha]
    rcases le_or_lt b xs.length with hb | hb
    · rw [min_eq_left hb, List.drop_take]
    · rw [min_eq_right hb.le, List.take_length]
      rw [List.take_of_length_le (by simp; omega)]
  · rw [min_eq_right ha.le]
    rw [List.drop_eq_nil_of_le (by simp), List.drop_eq_nil_of_le (by omega), List.take_nil]

/-! ## Claim C3: week rollover in get_gps_time -/

/-- C3 counterexample: for the counter exactly at the week boundary
(`counter/1024 = 604800`), the branch `gps_seconds > self._week_len` is
false (strict comparison), so the week is NOT incremented and the
seconds-of-week stay 604800 rather than wrapping to zero. -/
theorem get_gps_time_boundary_counterexample :
    get_gps_time_rollover (1024 * 604800) 0 = (0, 604800) ∧
    get_gps_time_rollover (1024 * 604800) 0 ≠ (1, 0) := by
  constructor
  · norm_num [get_gps_time_rollover, week_len]
  · norm_num [get_gps_time_rollover, week_len]

/-- C3 amended: rollover (week increment plus subtraction of one week
length) happens exactly when the counter's seconds-of-week STRICTLY exceed
604800; at exactly the boundary nothing is wrapped and the seconds stay
604800.  Also relates the returned value to the wrapped seconds. -/
theorem get_gps_time_rollover_amended :
    (∀ (c : ℚ) (w : Int), c / 1024 > week_len →
        get_gps_time_rollover c w = (w + 1, c / 1024 - week_len) ∧
        get_gps_time c w =
          ((⌊c / 1024 - week_len⌋ : ℚ) + (c / 1024 - ⌊c / 1024⌋) * (128 / 125)
            + ((w + 1 : Int) : ℚ) * week_len)) ∧
    (∀ w : Int, get_gps_time_rollover (1024 * week_len) w = (w, week_len)) := by
  constructor
  · intro c w hc
    constructor
    · simp only [get_gps_time_rollover, if_pos hc]
    · simp only [get_gps_time, if_pos hc]
  · intro w
    dsimp only [get_gps_time_rollover]
    rw [if_neg (by norm_num [week_len])]
    norm_num [week_len]

/-- Witness for the amended C3 theorem at a concrete counter one full
second past the boundary. -/
theorem get_gps_time_rollover_amended_witness :
    (1024 * 604801 : ℚ) / 1024 > week_len ∧
    get_gps_time_rollover (1024 * 604801) 0 = (0 + 1, (1024 * 604801 : ℚ) / 1024 - week_len) := by
  have h : (1024 * 604801 : ℚ) / 1024 > week_len := by norm_num [week_len]
  exact ⟨h, (get_gps_time_rollover_amended.1 (1024 * 604801) 0 h).1⟩

/-! ## Claim C4: the overflow "clamp" in the time-series frame writer -/

/-- C4: evaluating the writer at a sample just above the int32 range.  The
row hits the `struct.error` fallback and, because the source writes
`np.sign(self.ts[zz,nn]*2.14e9)` (line 1138) instead of
`np.sign(self.ts[zz,nn])*2.14e9`, the value actually written is the
sign ±1 — not a value clamped to the maximum representable magnitude. -/
theorem packRowTs_overflow_writes_sign_not_max :
    packRowTs [2147483648] = [1, 0, 0, 0] ∧
    decI32 (packRowTs [2147483648]) = 1 ∧
    decI32 (packRowTs [2147483648]) ≠ 2147483647 ∧
    packRowTs [-2147483649] = [255, 255, 255, 255] ∧
    decI32 (packRowTs [-2147483649]) = -1 := by decide

/-! ## Claim C6: Zen3D.get_gps_stamp_location (lines 516-545) -/

/-- `Zen3D._gps_stamp` (line 111): four sentinel bytes `'\xff\xff\xff\xff'`. -/
def gps_stamp : List Nat := [255, 255, 255, 255]

/-- `Zen3D.get_gps_stamp_location(start_index)`: find the next occurrence of
the four-byte marker, then advance past up to four extra sentinel bytes by
inspecting the byte four places beyond the candidate (lines 535-545). -/
def get_gps_stamp_location (raw : List Nat) (start_index : Option Int) :
    Except PyExc Int := do
  let g0 := strFind raw gps_stamp start_index
  let b0 ← pyCharAt raw (g0 + 4)
  if b0 = 255 then
    let g1 := g0 + 1
    let b1 ← pyCharAt raw (g1 + 4)
    if b1 = 255 then
      let g2 := g1 + 1
      let b2 ← pyCharAt raw (g2 + 4)
      if b2 = 255 then
        let g3 := g2 + 1
        let b3 ← pyCharAt raw (g3 + 4)
        if b3 = 255 then pure (g3 + 1) else pure g3
      else pure g2
    else pure g1
  else pure g0

theorem pyCharAt_ok (xs : List Nat) (i : Nat) (h : i < xs.length) :
    pyCharAt xs (i : Int) = .ok xs[i] := by
  simp [pyCharAt, Int.not_lt.mpr (Int.natCast_nonneg i), h]

theorem findFromGo_skip (hay needle : List Nat) (fuel i : Nat)
    (hlen : i + needle.length ≤ hay.length)
    (h : ¬ needle.isPrefixOf (hay.drop i)) :
    findFromGo hay needle (fuel + 1) i = findFromGo hay needle fuel (i + 1) := by
  simp only [findFromGo, if_neg (Nat.not_lt.mpr hlen), if_neg h]

theorem findFromGo_found (hay needle : List Nat) (fuel i : Nat)
    (hlen : i + needle.length ≤ hay.length)
    (h : needle.isPrefixOf (hay.drop i)) :
    findFromGo hay needle (fuel + 1) i = i := by
  simp only [findFromGo, if_neg (Nat.not_lt.mpr hlen), if_pos h]

/-- The first occurrence of a nonempty needle in `pre ++ rest` (with the
needle a prefix of `rest` and the needle's first byte absent from `pre`)
is at `pre.length`. -/
theorem findFrom_first (pre rest : List Nat) (n0 : Nat) (ntail : List Nat)
    (hpre : ∀ b ∈ pre, b ≠ n0)
    (hrest : (n0 :: ntail).isPrefixOf rest) :
    ∀ fuel i, i ≤ pre.length → pre.length + 1 ≤ fuel + i →
      findFromGo (pre ++ rest) (n0 :: ntail) fuel i = (pre.length : Int) := by
  have hrl : (n0 :: ntail).length ≤ rest.length := by
    rcases (List.isPrefixOf_iff_prefix.mp hrest) with ⟨t, ht⟩
    subst ht; simp
  intro fuel
  induction fuel with
  | zero => intro i h1 h2; omega
  | succ f ih =>
    intro i h1 h2
    have hlen : i + (n0 :: ntail).length ≤ (pre ++ rest).length := by
      simp only [List.length_append, List.length_cons] at *
      omega
    rcases Nat.lt_or_ge i pre.length with hi | hi
    · rw [findFromGo_skip _ _ _ _ hlen]
      · exact ih (i + 1) (by omega) (by omega)
      · intro hpf
        rcases List.isPrefixOf_iff_prefix.mp hpf with ⟨t, ht⟩
        have hilt : i < (pre ++ rest).length := by simp; omega
        have h255 : (pre ++ rest).get ⟨i, hilt⟩ = n0 := by
          have h0 : ((pre ++ rest).drop i).head? = some n0 := by
            rw [← ht]; rfl
          rw [List.head?_drop, List.getElem?_eq_getElem hilt] at h0
          exact Option.some_injective _ h0
        have heq : (pre ++ rest).get ⟨i, hilt⟩ = pre[i] := List.getElem_append_left hi
        exact hpre pre[i] (List.getElem_mem _) (by rw [← heq, h255])
    · have hieq : i = pre.length := by omega
      subst hieq
      rw [findFromGo_found _ _ _ _ hlen]
      rw [List.drop_left]
      exact hrest

theorem excBind_ok {ε α β : Type} (a : α) (f : α → Except ε β) :
    (Except.ok a : Except ε α) >>= f = f a := rfl

theorem excPure {ε α : Type} (a : α) : (pure a : Except ε α) = .ok a := rfl

/-- C6: a buffer holding the four-byte marker followed by `k` extra
sentinel bytes (`1 ≤ k ≤ 4`) before non-sentinel data resolves to the
offset four bytes before the data — i.e. to the true marker start, the
same final offset relative to the data no matter how many extra sentinel
bytes are present. -/
theorem get_gps_stamp_location_extra_sentinels
    (k : Nat) (pre dtail : List Nat) (d : Nat)
    (hk1 : 1 ≤ k) (hk4 : k ≤ 4)
    (hpre : ∀ b ∈ pre, b ≠ 255)
    (hd255 : d ≠ 255) :
    get_gps_stamp_location (pre ++ List.replicate (4 + k) 255 ++ (d :: dtail)) none
        = .ok ((pre.length : Int) + k) ∧
    ((pre.length : Int) + k)
        = ((pre ++ List.replicate (4 + k) 255 ++ (d :: dtail)).length : Int)
          - ((d :: dtail).length + 4) := by
  set raw := pre ++ List.replicate (4 + k) 255 ++ (d :: dtail) with hraw
  have hlen : raw.length = pre.length + (4 + k) + (dtail.length + 1) := by
    simp [hraw]; omega
  -- the find step lands on pre.length
  have hfind : strFind raw gps_stamp none = (pre.length : Int) := by
    have hpf : gps_stamp.isPrefixOf (List.replicate (4 + k) 255 ++ (d :: dtail)) := by
      rw [List.isPrefixOf_iff_prefix]
      refine ⟨List.replicate k 255 ++ (d :: dtail), ?_⟩
      rw [← List.append_assoc]
      congr 1
      have h4 : gps_stamp = List.replicate 4 255 := rfl
      rw [h4, ← List.replicate_add]
    have hmarker := findFrom_first pre _ 255 [255, 255, 255] hpre hpf (raw.length + 1) 0
      (Nat.zero_le _) (by omega)
    rw [← List.append_assoc] at hmarker
    simpa [strFind, findFrom, hraw] using hmarker
  -- bytes after each candidate position
  have hdrop : ∀ m (_ : m ≤ 4 + k),
      raw.drop (pre.length + m) = List.replicate (4 + k - m) 255 ++ (d :: dtail) := by
    intro m hm
    rw [hraw, List.append_assoc, List.drop_append m,
        List.drop_append_of_le_length (by simp; omega), List.drop_replicate]
  have hbyteAt : ∀ m (_ : m ≤ 4 + k), raw[pre.length + m]?
      = ((List.replicate (4 + k - m) 255 ++ (d :: dtail)).head?) := by
    intro m hm
    rw [← List.head?_drop, hdrop m hm]
  have hbyte255 : ∀ m (_ : m < 4 + k), raw[pre.length + m]? = some 255 := by
    intro m hm
    rw [hbyteAt m (by omega)]
    have h1 : 4 + k - m = (4 + k - m - 1) + 1 := by omega
    rw [h1, List.replicate_succ]
    rfl
  have hbyted : raw[pre.length + (4 + k)]? = some d := by
    rw [hbyteAt (4 + k) le_rfl]
    simp
  have hinrange : ∀ m (_ : m ≤ 4 + k), pre.length + m < raw.length := by
    intro m hm; omega
  have hgetAt255 : ∀ m (hm : m < 4 + k),
      raw.get ⟨pre.length + m, hinrange m (Nat.le_of_lt hm)⟩ = 255 := by
    intro m hm
    have hsome := hbyte255 m hm
    rw [List.getElem?_eq_getElem (hinrange m (Nat.le_of_lt hm))] at hsome
    exact Option.some_injective _ hsome
  have hgetAtd : raw.get ⟨pre.length + (4 + k), hinrange (4 + k) le_rfl⟩ = d := by
    have hsome := hbyted
    rw [List.getElem?_eq_getElem (hinrange (4 + k) le_rfl)] at hsome
    exact Option.some_injective _ hsome
  have hchar : ∀ m (hm : m ≤ 4 + k),
      pyCharAt raw ((pre.length : Int) + m)
        = .ok (raw.get ⟨pre.length + m, hinrange m hm⟩) := by
    intro m hm
    have hc : ((pre.length : Int) + m) = ((pre.length + m : Nat) : Int) := by push_cast; ring
    rw [hc]
    exact pyCharAt_ok raw (pre.length + m) (hinrange m hm)
  refine ⟨?_, ?_⟩
  case refine_2 =>
    have hcast : ((raw.length : Nat) : Int)
        = (pre.length : Int) + (4 + (k : Int)) + ((dtail.length : Int) + 1) := by
      exact_mod_cast hlen
    simp only [List.length_cons]
    omega
  dsimp only [get_gps_stamp_location]
  rw [hfind]
  interval_cases k
  · norm_num at hgetAtd
    rw [show ((pre.length : Int) + 4) = ((pre.length : Int) + ((4 : Nat) : Int)) by norm_num]
    rw [hchar 4 (by omega)]
    simp only [excBind_ok]
    rw [if_pos (hgetAt255 4 (by omega))]
    rw [show ((pre.length : Int) + 1 + 4) = ((pre.length : Int) + ((5 : Nat) : Int)) by
      push_cast; ring]
    rw [hchar 5 (by omega)]
    simp only [excBind_ok]
    have hgetd : raw.get ⟨pre.length + 5, hinrange 5 (by norm_num)⟩ = d := hgetAtd
    rw [if_neg (fun hc => hd255 (hgetd.symm.trans hc)), excPure]
    simp only [Except.ok.injEq]
    omega
  · norm_num at hgetAtd
    rw [show ((pre.length : Int) + 4) = ((pre.length : Int) + ((4 : Nat) : Int)) by norm_num]
    rw [hchar 4 (by omega)]
    simp only [excBind_ok]
    rw [if_pos (hgetAt255 4 (by omega))]
    rw [show ((pre.length : Int) + 1 + 4) = ((pre.length : Int) + ((5 : Nat) : Int)) by
      push_cast; ring]
    rw [hchar 5 (by omega)]
    simp only [excBind_ok]
    rw [if_pos (hgetAt255 5 (by omega))]
    rw [show ((pre.length : Int) + 1 + 1 + 4) = ((pre.length : Int) + ((6 : Nat) : Int)) by
      push_cast; ring]
    rw [hchar 6 (by omega)]
    simp only [excBind_ok]
    have hgetd : raw.get ⟨pre.length + 6, hinrange 6 (by norm_num)⟩ = d := hgetAtd
    rw [if_neg (fun hc => hd255 (hgetd.symm.trans hc)), excPure]
    simp only [Except.ok.injEq]
    omega
  · norm_num at hgetAtd
    rw [show ((pre.length : Int) + 4) = ((pre.length : Int) + ((4 : Nat) : Int)) by norm_num]
    rw [hchar 4 (by omega)]
    simp only [excBind_ok]
    rw [if_pos (hgetAt255 4 (by omega))]
    rw [show ((pre.length : Int) + 1 + 4) = ((pre.length : Int) + ((5 : Nat) : Int)) by
      push_cast; ring]
    rw [hchar 5 (by omega)]
    simp only [excBind_ok]
    rw [if_pos (hgetAt255 5 (by omega))]
    rw [show ((pre.length : Int) + 1 + 1 + 4) = ((pre.length : Int) + ((6 : Nat) : Int)) by
      push_cast; ring]
    rw [hchar 6 (by omega)]
    simp only [excBind_ok]
    rw [if_pos (hgetAt255 6 (by omega))]
    rw [show ((pre.length : Int) + 1 + 1 + 1 + 4) = ((pre.length : Int) + ((7 : Nat) : Int)) by
      push_cast; ring]
    rw [hchar 7 (by omega)]
    simp only [excBind_ok]
    have hgetd : raw.get ⟨pre.length + 7, hinrange 7 (by norm_num)⟩ = d := hgetAtd
    rw [if_neg (fun hc => hd255 (hgetd.symm.trans hc)), excPure]
    simp only [Except.ok.injEq]
    omega
  · norm_num at hgetAtd
    rw [show ((pre.length : Int) + 4) = ((pre.length : Int) + ((4 : Nat) : Int)) by norm_num]
    rw [hchar 4 (by omega)]
    simp only [excBind_ok]
    rw [if_pos (hgetAt255 4 (by omega))]
    rw [show ((pre.length : Int) + 1 + 4) = ((pre.length : Int) + ((5 : Nat) : Int)) by
      push_cast; ring]
    rw [hchar 5 (by omega)]
    simp only [excBind_ok]
    rw [if_pos (hgetAt255 5 (by omega))]
    rw [show ((pre.length : Int) + 1 + 1 + 4) = ((pre.length : Int) + ((6 : Nat) : Int)) by
      push_cast; ring]
    rw [hchar 6 (by omega)]
    simp only [excBind_ok]
    rw [if_pos (hgetAt255 6 (by omega))]
    rw [show ((pre.length : Int) + 1 + 1 + 1 + 4) = ((pre.length : Int) + ((7 : Nat) : Int)) by
      push_cast; ring]
    rw [hchar 7 (by omega)]
    simp only [excBind_ok]
    rw [if_pos (hgetAt255 7 (by omega)), excPure]
    simp only [Except.ok.injEq]
    omega

/-- Witness for C6 at a concrete buffer with two extra sentinel bytes. -/
theorem get_gps_stamp_location_extra_sentinels_witness :
    (1 ≤ 2 ∧ 2 ≤ 4 ∧ (∀ b ∈ ([0] : List Nat), b ≠ 255) ∧ (7 : Nat) ≠ 255) ∧
    get_gps_stamp_location ([0] ++ List.replicate (4 + 2) 255 ++ (7 :: [8])) none
      = .ok ((([0] : List Nat).length : Int) + 2) :=
  ⟨⟨by decide, by decide, by decide, by decide⟩,
   (get_gps_stamp_location_extra_sentinels 2 [0] [8] 7 (by decide) (by decide)
      (by decide) (by decide)).1⟩

/-! ## numpy float model

Finite floats are carried as exact rationals; the decoders below read the
IEEE-754 bit patterns exactly.  Where the code performs float arithmetic
(degree conversion, the log10 threshold test) the model computes the exact
rational value; this differs from the float result by at most one ulp and
by nothing at all on the integer byte patterns exercised in the proofs. -/

inductive PyFloat where
  | finite (q : ℚ) : PyFloat
  | inf (neg : Bool) : PyFloat
  | nan : PyFloat
  deriving DecidableEq, Repr

/-- The float64 value of `np.pi` (the IEEE double nearest to pi). -/
def pi64 : ℚ := 884279719003555 / 281474976710656

/-- Little-endian byte fold. -/
def leNat (b : List Nat) : Nat := b.foldr (fun x acc => x + 256 * acc) 0

/-- `np.fromstring(-, dtype=np.uint32)` of 4 bytes. -/
def decU32 (b : List Nat) : Nat := leNat b

/-- Decode 8 little-endian bytes as an IEEE-754 float64. -/
def decodeF64 (b : List Nat) : PyFloat :=
  let u : Nat := leNat b
  let sign : Nat := u / 2 ^ 63 % 2
  let expo : Nat := u / 2 ^ 52 % 2 ^ 11
  let frac : Nat := u % 2 ^ 52
  if expo = 2047 then (if frac = 0 then .inf (sign == 1) else .nan)
  else
    let mag : ℚ :=
      if expo = 0 then (frac : ℚ) * (2 : ℚ) ^ (-(1074 : Int))
      else (((2 ^ 52 + frac : Nat) : ℚ)) * (2 : ℚ) ^ ((expo : Int) - 1075)
    .finite (if sign = 1 then -mag else mag)

/-- Decode 4 little-endian bytes as an IEEE-754 float32. -/
def decodeF32 (b : List Nat) : PyFloat :=
  let u : Nat := leNat b
  let sign : Nat := u / 2 ^ 31 % 2
  let expo : Nat := u / 2 ^ 23 % 2 ^ 8
  let frac : Nat := u % 2 ^ 23
  if expo = 255 then (if frac = 0 then .inf (sign == 1) else .nan)
  else
    let mag : ℚ :=
      if expo = 0 then (frac : ℚ) * (2 : ℚ) ^ (-(149 : Int))
      else (((2 ^ 23 + frac : Nat) : ℚ)) * (2 : ℚ) ^ ((expo : Int) - 150)
    .finite (if sign = 1 then -mag else mag)

/-- `abs(x) > c` on a float (False for NaN, True for ±inf). -/
def pfAbsGt (x : PyFloat) (c : ℚ) : Bool :=
  match x with
  | .finite q => decide (c < |q|)
  | .inf _ => true
  | .nan => false

/-- `np.log10(abs(x)) < -3`, modelled as the exact test `|x| < 1/1000`
(`log10(0) = -inf` makes the zero case True, matching the model). -/
def pfLog10AbsLtNeg3 (x : PyFloat) : Bool :=
  match x with
  | .finite q => decide (|q| < 1 / 1000)
  | .inf _ => false
  | .nan => false

/-- `Zen3D.get_degrees` (lines 687-695): `radian_value*180/np.pi`. -/
def get_degrees (x : PyFloat) : PyFloat :=
  match x with
  | .finite q => .finite (q * 180 / pi64)
  | y => y

/-- Round a natural number to float32 precision (24-bit mantissa,
round-to-nearest-even); exact below 2^24, no overflow below 2^31. -/
def f32ofNat (n : Nat) : ℚ :=
  if n < 16777216 then (n : ℚ)
  else
    let k := n.log2 + 1 - 24
    let q := n / 2 ^ k
    let r := n % 2 ^ k
    let half := 2 ^ (k - 1)
    let q2 := if half < r ∨ (r = half ∧ q % 2 = 1) then q + 1 else q
    (q2 : ℚ) * 2 ^ k

/-- `astype(np.float32)` of an int32 value. -/
def f32ofInt (v : Int) : ℚ :=
  if 0 ≤ v then f32ofNat v.toNat else -(f32ofNat (-v).toNat)

/-- Truncation toward zero (C float-to-int conversion). -/
def qTrunc (q : ℚ) : Int := if 0 ≤ q then ⌊q⌋ else ⌈q⌉

/-- Wrap an integer into the int32 range (numpy out-of-range cast). -/
def i32cast (n : Int) : Int := (n + 2147483648) % 4294967296 - 2147483648

/-! ## Zen3D.get_gps_stamp (ZenTools.py lines 547-604) -/

/-- One decoded 36-byte stamp record (`Zen3D._data_type`, lines 113-120).
`time` holds the record's int32 `time` field after the two in-place
assignments of lines 558-559: `astype(np.float32)` stored back into the
int32 field, then the `get_gps_time` result stored back (truncating). -/
structure GpsInfo where
  gps : Int
  time : Int
  lat : PyFloat
  lon : PyFloat
  status : Nat
  gps_accuracy : Int
  temperature : PyFloat
  deriving DecidableEq, Repr

/-- `np.fromstring(raw[idx:idx+36], dtype=self._data_type)` followed by the
`time`-field assignments: ValueError when the slice length is not a
multiple of the 36-byte item size; an empty slice gives an empty record
array (`none`). -/
def decodeStampAt (raw : List Nat) (idx : Int) : Except PyExc (Option GpsInfo) :=
  let b := pySlice raw idx (idx + 36)
  if b.length % 36 ≠ 0 then .error .valueError
  else if b.length = 0 then .ok none
  else
    let t0 := decI32 ((b.drop 4).take 4)
    let t1 := i32cast (qTrunc (f32ofInt t0))
    let t2 := i32cast (qTrunc (get_gps_time (t1 : ℚ)))
    .ok (some
      { gps := decI32 (b.take 4)
        time := t2
        lat := decodeF64 ((b.drop 8).take 8)
        lon := decodeF64 ((b.drop 16).take 8)
        status := decU32 ((b.drop 24).take 4)
        gps_accuracy := decI32 ((b.drop 28).take 4)
        temperature := decodeF32 ((b.drop 32).take 4) })

/-- Outcome of one of get_gps_stamp's validation loops. -/
inductive StampStep where
  /-- loop exited normally with the current record (or the empty array) -/
  | stepOk (g : Option GpsInfo) (idx : Int) : StampStep
  /-- a re-scan decode raised ValueError (caught by the outer `except`) -/
  | truncated (idx : Int) : StampStep
  deriving DecidableEq, Repr

/-- One `while cond: re-scan 7 bytes forward and re-decode` loop from
get_gps_stamp (each of lines 560-593 has this shape).  Conditions on an
empty record array are numpy-False, so an empty record exits at once. -/
def rescanWhile (raw : List Nat) (cond : GpsInfo → Bool) :
    Nat → Option GpsInfo × Int → Except PyExc StampStep
  | _, (none, idx) => .ok (.stepOk none idx)
  | 0, (some _, _) => .error .fuelExhausted
  | fuel + 1, (some info, idx) =>
    if cond info then do
      let idx2 ← get_gps_stamp_location raw (some (idx + 7))
      match decodeStampAt raw idx2 with
      | .error .valueError => pure (.truncated idx2)
      | .error e => throw e
      | .ok o2 => rescanWhile raw cond fuel (o2, idx2)
    else .ok (.stepOk (some info) idx)

/-- Result of `Zen3D.get_gps_stamp`: the Python return value
`(gps_info, gps_index)` where `gps_info` is `None` after a caught
ValueError, an empty record array, or a validated record. -/
inductive StampRes where
  | noneRes : StampRes
  | emptyArr : StampRes
  | info (g : GpsInfo) : StampRes
  deriving DecidableEq, Repr

/-- Loop fuel; the scans in the proofs below never iterate this often
(an artifact of embedding unbounded `while` loops). -/
def stampFuel : Nat := 1000000

/-- `Zen3D.get_gps_stamp(gps_index)` (lines 547-604): decode, validate
through the five sequential re-scan loops, convert lat/lon to degrees;
a ValueError anywhere inside is caught and yields `(None, gps_index)`. -/
def get_gps_stamp (raw : List Nat) (gps_index : Int) :
    Except PyExc (StampRes × Int) := do
  match decodeStampAt raw gps_index with
  | .error .valueError => pure (.noneRes, gps_index)
  | .error e => throw e
  | .ok o0 =>
    match ← rescanWhile raw (fun g => decide (g.time < 0)) stampFuel (o0, gps_index) with
    | .truncated i => pure (.noneRes, i)
    | .stepOk o1 i1 =>
      match ← rescanWhile raw (fun g => decide (g.status < 0)) stampFuel (o1, i1) with
      | .truncated i => pure (.noneRes, i)
      | .stepOk o2 i2 =>
        match ← rescanWhile raw (fun g => pfAbsGt g.temperature 80) stampFuel (o2, i2) with
        | .truncated i => pure (.noneRes, i)
        | .stepOk o3 i3 =>
          match ← rescanWhile raw (fun g => pfAbsGt g.lat pi64) stampFuel (o3, i3) with
          | .truncated i => pure (.noneRes, i)
          | .stepOk o4 i4 =>
            match ← rescanWhile raw (fun g => pfLog10AbsLtNeg3 g.lat) stampFuel (o4, i4) with
            | .truncated i => pure (.noneRes, i)
            | .stepOk o5 i5 =>
              match o5 with
              | none => pure (.emptyArr, i5)
              | some g => pure (.info
                  { g with lat := get_degrees g.lat, lon := get_degrees g.lon }, i5)

/-! ## Claim C7: truncated stamp reads -/

/-- C7 counterexample: with ZERO bytes remaining (`np.fromstring('')`
returns an empty record array, not an error), get_gps_stamp returns the
empty record, not the `(None, idx)` truncation failure — even though
decoding 36 bytes at this offset would read past the end of the buffer. -/
theorem get_gps_stamp_empty_not_failure :
    get_gps_stamp [] 0 = .ok (.emptyArr, 0) ∧
    StampRes.emptyArr ≠ StampRes.noneRes := by decide

/-- C7 amended: whenever between 1 and 35 bytes remain at a non-negative
offset, the very first `np.fromstring` raises ValueError (slice size not a
multiple of the 36-byte item size), the `except` catches it, and
get_gps_stamp returns the truncation failure `(None, gps_index)`; with 0
bytes remaining it instead returns an empty record array (see the
counterexample). -/
theorem get_gps_stamp_truncated_amended (raw : List Nat) (idx : Int)
    (h0 : 0 ≤ idx) (h1 : (raw.length : Int) - idx < 36)
    (h2 : 0 < (raw.length : Int) - idx) :
    get_gps_stamp raw idx = .ok (.noneRes, idx) := by
  have hn : idx = ((idx.toNat : Nat) : Int) := by omega
  have hlen : (pySlice raw idx (idx + 36)).length = raw.length - idx.toNat := by
    rw [hn, show ((idx.toNat : Nat) : Int) + 36 = ((idx.toNat + 36 : Nat) : Int) by push_cast; ring]
    rw [pySlice_natIdx]
    simp
    omega
  have hmod : (pySlice raw idx (idx + 36)).length % 36 ≠ 0 := by
    rw [hlen]; omega
  have hdec : decodeStampAt raw idx = .error .valueError := by
    dsimp only [decodeStampAt]
    rw [if_pos hmod]
  dsimp only [get_gps_stamp]
  rw [hdec]
  rfl

/-- Witness for the amended C7 theorem on a 10-byte buffer. -/
theorem get_gps_stamp_truncated_amended_witness :
    (0 : Int) ≤ 0 ∧ ((List.replicate 10 0 : List Nat).length : Int) - 0 < 36 ∧
    (0 : Int) < ((List.replicate 10 0 : List Nat).length : Int) - 0 ∧
    get_gps_stamp (List.replicate 10 0) 0 = .ok (.noneRes, 0) :=
  ⟨by decide, by decide, by decide,
   get_gps_stamp_truncated_amended (List.replicate 10 0) 0 (by decide)
     (by decide) (by decide)⟩

/-! ## Claim C5: ZenCache.check_time_series (ZenTools.py lines 962-1021) -/

/-- The per-channel state of a decoded `Zen3D` object, as consumed by
`ZenCache.check_time_series`.  `date_time` holds the formatted
`YYYY-MM-DD,HH:MM:SS` per-second stamps; `time_series` the decoded
samples in physical units. -/
structure Zen3DChan where
  date_time : List (List Nat)
  time_series : List ℚ
  gps_diff : List ℚ
  gps_lst : List Int
  gps_time : List ℚ
  df : Nat
  deriving DecidableEq, Repr

/-- `int(zt.date_time[0][-2:])` (line 972): the seconds-field of the first
per-second stamp. -/
def stSeconds (c : Zen3DChan) : Except PyExc Nat :=
  match c.date_time.head? with
  | none => .error .indexError
  | some s => parseDigits (pySlice s (-2) (s.length : Int))

def stSecondsList : List Zen3DChan → Except PyExc (List Nat)
  | [] => .ok []
  | z :: rest => do
    let s ← stSeconds z
    let r ← stSecondsList rest
    pure (s :: r)

/-- The `skip_dict` of lines 976-979: zero for every channel when all
channels share the maximal seconds-field, otherwise `max - seconds` per
channel. -/
def skipsOf (zts : List Zen3DChan) : Except PyExc (List Nat) := do
  let st ← stSecondsList zts
  match st with
  | [] => throw .valueError
  | s0 :: srest =>
    let m := srest.foldl max s0
    let cnt := st.count m
    if cnt = zts.length then pure (st.map fun _ => 0)
    else pure (st.map fun s => m - s)

/-- `ZenCache.check_time_series` (lines 962-1021).  When some channel has a
nonzero skip, the re-slicing loop reaches line 990,
`zt.gps_time = zt.gps_time[skip_dict[ii:]]`, which indexes the dict
`skip_dict` with a slice and raises TypeError before any matrix is built.
Otherwise every channel is trimmed to the minimum length; the result is
the list of per-channel columns of `ts_array` together with `ts_min`. -/
def check_time_series (zts : List Zen3DChan) :
    Except PyExc (List (List ℚ) × Nat) := do
  let skips ← skipsOf zts
  if skips.any (fun s => decide (s ≠ 0)) then throw .typeError
  else
    match (zts.map fun z => z.time_series.length) with
    | [] => throw .valueError
    | l0 :: lrest =>
      let ts_min := lrest.foldl min l0
      pure (zts.map (fun z => z.time_series.take ts_min), ts_min)

/-- C5 counterexample: with start seconds {5, 3, 3} (df = 1), the claim
predicts that two seconds of leading samples are dropped from the FIRST
channel and the channels trimmed to the remaining minimum; the code
instead computes skips {0, 2, 2} (the first channel is the maximal one and
keeps its samples) and then crashes with a TypeError at line 990 before
producing any matrix. -/
theorem check_time_series_staggered_crash :
    check_time_series
      [{ date_time := [bs ("2013-06-01,19:00:05")], time_series := [1, 2, 3, 4],
         gps_diff := [], gps_lst := [], gps_time := [], df := 1 },
       { date_time := [bs ("2013-06-01,19:00:03")], time_series := [10, 20, 30, 40],
         gps_diff := [], gps_lst := [], gps_time := [], df := 1 },
       { date_time := [bs ("2013-06-01,19:00:03")], time_series := [100, 200, 300, 400],
         gps_diff := [], gps_lst := [], gps_time := [], df := 1 }]
      = .error .typeError ∧
    (Except.error PyExc.typeError : Except PyExc (List (List ℚ) × Nat))
      ≠ .ok ([[3, 4], [10, 20], [100, 200]], 2) := by
  constructor
  · decide
  · decide

/-- C5 amended: for three channels whose first stamps carry seconds
{5, 3, 3}, the skip amounts are {0, 2, 2} — the drop is scheduled for the
channels that differ from the maximum (the second and third), not the
first — and the nonzero skips make check_time_series fail with TypeError
(line 990 indexes skip_dict with a slice) instead of aligning. -/
theorem check_time_series_staggered_amended (c1 c2 c3 : Zen3DChan)
    (h1 : stSeconds c1 = .ok 5) (h2 : stSeconds c2 = .ok 3)
    (h3 : stSeconds c3 = .ok 3) :
    skipsOf [c1, c2, c3] = .ok [0, 2, 2] ∧
    check_time_series [c1, c2, c3] = .error .typeError := by
  have hlist : stSecondsList [c1, c2, c3] = .ok [5, 3, 3] := by
    dsimp only [stSecondsList]
    rw [h1, excBind_ok, h2, excBind_ok, h3, excBind_ok]
    rfl
  have hskips : skipsOf [c1, c2, c3] = .ok [0, 2, 2] := by
    dsimp only [skipsOf]
    rw [hlist, excBind_ok]
    rfl
  refine ⟨hskips, ?_⟩
  dsimp only [check_time_series]
  rw [hskips, excBind_ok]
  rfl

/-- Witness for the amended C5 theorem at concrete channels. -/
theorem check_time_series_staggered_amended_witness :
    stSeconds { date_time := [bs ("2013-06-01,19:00:05")], time_series := ([] : List ℚ),
                gps_diff := [], gps_lst := [], gps_time := [], df := 4096 } = .ok 5 ∧
    check_time_series
      [{ date_time := [bs ("2013-06-01,19:00:05")], time_series := [],
         gps_diff := [], gps_lst := [], gps_time := [], df := 4096 },
       { date_time := [bs ("2013-06-01,19:00:03")], time_series := [],
         gps_diff := [], gps_lst := [], gps_time := [], df := 4096 },
       { date_time := [bs ("2013-06-01,19:00:03")], time_series := [],
         gps_diff := [], gps_lst := [], gps_time := [], df := 4096 }]
      = .error .typeError :=
  ⟨by decide,
   (check_time_series_staggered_amended _ _ _ (by decide) (by decide) (by decide)).2⟩

/-! ## Claim C10: sample assembly and nonzero filtering in Zen3D.read_3d
(ZenTools.py lines 386-411 and 328-331) -/

/-- `Zen3D.counts_to_mv_conversion` (line 133): 9.5367431640625e-10. -/
def counts_to_mv : ℚ := 95367431640625 / 10 ^ 23

/-- numpy slice assignment `arr[i:j] = vals` (Python index normalization);
a length mismatch raises ValueError, which read_3d's `try` catches, so the
array is then left unchanged. -/
def pySliceAssign (arr : List ℚ) (i j : Int) (vals : List ℚ) : List ℚ :=
  let n : Int := arr.length
  let i2 := if i < 0 then max (n + i) 0 else min i n
  let j2 := if j < 0 then max (n + j) 0 else min j n
  if ((arr.take j2.toNat).drop i2.toNat).length = vals.length then
    arr.take i2.toNat ++ vals ++ arr.drop (i2.toNat + vals.length)
  else arr

/-- One iteration of the data-copy loop (lines 387-397): compute `pdiff`,
decode the inter-stamp byte span as int32 words (ValueError on a length
that is not a multiple of 4 is caught and skips the assignment), and
assign into `data_array[ll*df:(ll+1)*df+pdiff]` (int32 words are cast to
float32 on storage). -/
def fillStep (raw : List Nat) (df : Nat) (arr : List ℚ) (ll : Nat)
    (kk knext : Int) : List ℚ :=
  let pdiff : Int := ((knext - (kk + 36)) - (df * 4 : Int)).fdiv 4
  let bytes := pySlice raw (kk + 36) knext
  if bytes.length % 4 ≠ 0 then arr
  else
    let vals := (decI32List bytes).map f32ofInt
    pySliceAssign arr ((ll * df : Nat) : Int) ((((ll + 1) * df : Nat) : Int) + pdiff) vals

/-- `for ll, kk in enumerate(gps_lst[0:-1])` of line 387, with
`gps_lst[ll+1]` as the interval end. -/
def fillLoop (raw : List Nat) (df : Nat) : Nat → List Int → List ℚ → List ℚ
  | _, [], arr => arr
  | _, [_], arr => arr
  | ll, k0 :: k1 :: rest, arr =>
    fillLoop raw df (ll + 1) (k1 :: rest) (fillStep raw df arr ll k0 k1)

/-- `data_array` after the copy loop: starts as
`np.zeros((num_samples+1)*df)` (line 386). -/
def read3dFill (raw : List Nat) (gps_lst : List Int) (df : Nat) : List ℚ :=
  fillLoop raw df 0 gps_lst (List.replicate ((gps_lst.length + 1) * df) 0)

/-- `self.time_series` (lines 406-411): keep the nonzero entries of
`data_array`, then scale by the counts-to-millivolt factor. -/
def read3dTimeSeries (raw : List Nat) (gps_lst : List Int) (df : Nat) : List ℚ :=
  ((read3dFill raw gps_lst df).filter (fun q => decide (q ≠ 0))).map
    (fun q => q * counts_to_mv)

/-- Line 329: `gps_dict['time'] = gps_dict['time'][np.nonzero(...)]`. -/
def nonzeroTimes (times : List ℚ) : List ℚ :=
  times.filter (fun t => decide (t ≠ 0))

/-- The int32 sample words lying between consecutive stamp offsets. -/
def intervalWords (raw : List Nat) : List Int → List (List Int)
  | k0 :: k1 :: rest => decI32List (pySlice raw (k0 + 36) k1) :: intervalWords raw (k1 :: rest)
  | _ => []

theorem decI32List_length : ∀ b : List Nat, (decI32List b).length = b.length / 4
  | [] => rfl
  | [_] => by simp [decI32List]
  | [_, _] => by simp [decI32List]
  | [_, _, _] => by simp [decI32List]
  | _ :: _ :: _ :: _ :: rest => by
      simp only [decI32List, List.length_cons, decI32List_length rest]
      omega

theorem pySlice_int_exact (xs : List Nat) (i j : Int)
    (h0 : 0 ≤ i) (hij : i ≤ j) (_hj : j ≤ (xs.length : Int)) :
    pySlice xs i j = (xs.drop i.toNat).take (j.toNat - i.toNat) := by
  have hi : i = ((i.toNat : Nat) : Int) := by omega
  have hjc : j = ((j.toNat : Nat) : Int) := by omega
  rw [hi, hjc, pySlice_natIdx]
  simp only [Int.toNat_natCast]

theorem pySliceAssign_exact (arr : List ℚ) (a b : Nat) (vals : List ℚ)
    (hb : b ≤ arr.length) (hab : a ≤ b) (hlen : vals.length = b - a) :
    pySliceAssign arr (a : Int) (b : Int) vals
      = arr.take a ++ vals ++ arr.drop (a + vals.length) := by
  dsimp only [pySliceAssign]
  rw [if_neg (Int.not_lt.mpr (Int.natCast_nonneg a)),
      if_neg (Int.not_lt.mpr (Int.natCast_nonneg b))]
  have hmin : ∀ k : Nat, k ≤ arr.length →
      (min (k : Int) ((arr.length : Nat) : Int)).toNat = k := by
    intro k hk; omega
  rw [hmin a (le_trans hab hb), hmin b hb]
  rw [if_pos]
  simp only [List.length_drop, List.length_take]
  omega

theorem f32ofInt_zero : f32ofInt 0 = 0 := by
  simp [f32ofInt, f32ofNat]

/-- The fill loop writes each nominal interval's words contiguously and
leaves the zero padding after them untouched. -/
theorem fillLoop_nominal (raw : List Nat) (df : Nat) (hdf : 0 < df) :
    ∀ (ks : List Int) (ll : Nat) (A : List ℚ) (R : Nat),
      A.length = ll * df →
      R = (ks.length + 1) * df →
      List.Chain' (fun a b => b = a + 36 + 4 * (df : Int)) ks →
      (∀ k ∈ ks, 0 ≤ k ∧ k ≤ (raw.length : Int)) →
      fillLoop raw df ll ks (A ++ List.replicate R 0)
        = A ++ ((intervalWords raw ks).flatten.map f32ofInt)
            ++ List.replicate (R - (ks.length - 1) * df) 0 := by
  intro ks
  induction ks with
  | nil =>
    intro ll A R hA hR hchain hmem
    simp [fillLoop, intervalWords]
  | cons k0 rest ih =>
    intro ll A R hA hR hchain hmem
    match rest with
    | [] =>
      simp [fillLoop, intervalWords]
    | k1 :: rest2 =>
      have hk1 : k1 = k0 + 36 + 4 * (df : Int) := (List.chain'_cons.mp hchain).1
      have hchain2 : List.Chain' (fun a b => b = a + 36 + 4 * (df : Int)) (k1 :: rest2) :=
        (List.chain'_cons.mp hchain).2
      have hk0 := hmem k0 (by simp)
      have hk1m := hmem k1 (by simp)
      -- the interval byte slice has exactly 4*df bytes
      have hbytes : (pySlice raw (k0 + 36) k1).length = 4 * df := by
        rw [pySlice_int_exact raw (k0 + 36) k1 (by omega) (by omega) (by omega)]
        simp only [List.length_take, List.length_drop]
        omega
      have hwords : ((decI32List (pySlice raw (k0 + 36) k1)).map f32ofInt).length = df := by
        rw [List.length_map, decI32List_length, hbytes]
        omega
      have hR3 : R = rest2.length * df + 3 * df := by
        rw [hR]; simp only [List.length_cons]; ring
      have hll1 : (ll + 1) * df = ll * df + df := by ring
      have hr1 : (rest2.length + 1) * df = rest2.length * df + df := by ring
      have hr2 : (rest2.length + 1 + 1) * df = rest2.length * df + df + df := by ring
      -- one fillStep writes the words over A's end
      have hstep : fillStep raw df (A ++ List.replicate R 0) ll k0 k1
          = (A ++ (decI32List (pySlice raw (k0 + 36) k1)).map f32ofInt)
            ++ List.replicate (R - df) 0 := by
        dsimp only [fillStep]
        rw [if_neg (by rw [hbytes]; omega)]
        have hz : (k1 - (k0 + 36)) - (df * 4 : Int) = 0 := by rw [hk1]; ring
        rw [hz]
        rw [show (Int.fdiv 0 4) = 0 from rfl]
        rw [show ((((ll + 1) * df : Nat) : Int) + 0) = (((ll + 1) * df : Nat) : Int) by ring]
        have harrlen : (A ++ List.replicate R 0).length = ll * df + R := by
          simp [hA]
        rw [pySliceAssign_exact _ (ll * df) ((ll + 1) * df) _
          (by rw [harrlen, hll1]; omega)
          (by rw [hll1]; omega)
          (by rw [hwords, hll1]; omega)]
        rw [hwords]
        rw [List.take_left' hA]
        rw [show ll * df + df = A.length + df by omega, List.drop_append,
          List.drop_replicate]
      rw [fillLoop, hstep]
      rw [ih (ll + 1) (A ++ (decI32List (pySlice raw (k0 + 36) k1)).map f32ofInt) (R - df)
        (by rw [List.length_append, hA, hwords]; ring)
        (by simp only [List.length_cons]; rw [hr2]; omega)
        hchain2
        (fun k hk => hmem k (by simp [hk]))]
      have hcount : (R - df) - ((k1 :: rest2).length - 1) * df
          = R - ((k0 :: k1 :: rest2).length - 1) * df := by
        simp only [List.length_cons, Nat.add_sub_cancel]
        omega
      rw [hcount, intervalWords]
      simp only [List.flatten_cons, List.map_append, List.append_assoc]

theorem filter_ne_zero_replicate_zero (k : Nat) :
    (List.replicate k (0 : ℚ)).filter (fun q => decide (q ≠ 0)) = [] := by
  induction k with
  | zero => rfl
  | succ n ih => simp [List.replicate_succ, List.filter_cons, ih]

/-- C10: over nominally spaced stamps, the reconstructed time series is the
nonzero filter of the concatenated inter-stamp int32 words (cast to
float32), filtered BEFORE scaling to millivolts; hence any zero sample
word strictly shortens the series relative to the contiguous
concatenation, and zero-time stamps are likewise dropped by the
line-329 filter. -/
theorem read3d_nonzero_filter
    (raw : List Nat) (gps_lst : List Int) (df : Nat) (hdf : 0 < df)
    (hchain : List.Chain' (fun a b => b = a + 36 + 4 * (df : Int)) gps_lst)
    (hmem : ∀ k ∈ gps_lst, 0 ≤ k ∧ k ≤ (raw.length : Int)) :
    read3dTimeSeries raw gps_lst df
        = (((intervalWords raw gps_lst).flatten.map f32ofInt).filter
            (fun q => decide (q ≠ 0))).map (fun q => q * counts_to_mv) ∧
    ((0 : Int) ∈ (intervalWords raw gps_lst).flatten →
        (read3dTimeSeries raw gps_lst df).length
          < (intervalWords raw gps_lst).flatten.length) ∧
    (∀ times : List ℚ, (0 : ℚ) ∉ nonzeroTimes times) := by
  have hfill : read3dFill raw gps_lst df
      = ((intervalWords raw gps_lst).flatten.map f32ofInt)
        ++ List.replicate ((gps_lst.length + 1) * df - (gps_lst.length - 1) * df) 0 := by
    dsimp only [read3dFill]
    rw [← List.nil_append (List.replicate ((gps_lst.length + 1) * df) (0 : ℚ))]
    rw [fillLoop_nominal raw df hdf gps_lst 0 [] ((gps_lst.length + 1) * df)
      (by simp) rfl hchain hmem]
    simp
  have hone : read3dTimeSeries raw gps_lst df
      = (((intervalWords raw gps_lst).flatten.map f32ofInt).filter
          (fun q => decide (q ≠ 0))).map (fun q => q * counts_to_mv) := by
    dsimp only [read3dTimeSeries]
    rw [hfill, List.filter_append, filter_ne_zero_replicate_zero, List.append_nil]
  refine ⟨hone, ?_, ?_⟩
  · intro hz
    rw [hone, List.length_map]
    calc (((intervalWords raw gps_lst).flatten.map f32ofInt).filter
            (fun q => decide (q ≠ 0))).length
        < ((intervalWords raw gps_lst).flatten.map f32ofInt).length := by
          rw [List.length_filter_lt_length_iff_exists]
          exact ⟨f32ofInt 0, List.mem_map_of_mem _ hz, by simp [f32ofInt_zero]⟩
      _ = (intervalWords raw gps_lst).flatten.length := List.length_map _ _
  · intro times hmem0
    simp only [nonzeroTimes, List.mem_filter] at hmem0
    exact absurd hmem0.2 (by decide)

/-- Witness for C10 on a 40-byte buffer with two nominal stamps (df = 1)
whose single inter-stamp word is zero. -/
theorem read3d_nonzero_filter_witness :
    (0 : Int) ∈ (intervalWords (List.replicate 40 0) [0, 40]).flatten ∧
    (read3dTimeSeries (List.replicate 40 0) [0, 40] 1).length
      < (intervalWords (List.replicate 40 0) [0, 40]).flatten.length :=
  ⟨by decide,
   (read3d_nonzero_filter (List.replicate 40 0) [0, 40] 1 (by decide)
      (List.chain'_cons.mpr ⟨by norm_num, List.chain'_singleton _⟩)
      (by decide)).2.1 (by decide)⟩

/-! ## ZenCache container codec (ZenTools.py lines 802-1253) -/

/-- newline and comma bytes -/
def nlB : Nat := 10
def cmB : Nat := 44

theorem pySplit_sepFree (sep : Nat) :
    ∀ l : List Nat, sep ∉ l → pySplit l sep = [l] := by
  intro l
  induction l with
  | nil => intro _; rfl
  | cons x rest ih =>
    intro h
    have hx : x ≠ sep := by intro hc; exact h (by simp [hc])
    have hr : sep ∉ rest := fun hc => h (by simp [hc])
    simp only [pySplit, if_neg hx, ih hr]

theorem pySplit_chunk (sep : Nat) :
    ∀ (p rest : List Nat), sep ∉ p →
      pySplit (p ++ sep :: rest) sep = p :: pySplit rest sep := by
  intro p
  induction p with
  | nil => intro rest _; simp [pySplit]
  | cons x p2 ih =>
    intro rest h
    have hx : x ≠ sep := by intro hc; exact h (by simp [hc])
    have hp : sep ∉ p2 := fun hc => h (by simp [hc])
    show pySplit (x :: (p2 ++ sep :: rest)) sep = (x :: p2) :: pySplit rest sep
    simp only [pySplit, if_neg hx]
    rw [ih rest hp]

/-- splitting a newline-joined sequence of newline-free lines recovers the
lines plus the final empty piece. -/
theorem pySplit_join (sep : Nat) :
    ∀ pieces : List (List Nat), (∀ p ∈ pieces, sep ∉ p) →
      pySplit ((pieces.map (fun p => p ++ [sep])).flatten) sep = pieces ++ [[]] := by
  intro pieces
  induction pieces with
  | nil => intro _; rfl
  | cons p ps ih =>
    intro h
    simp only [List.map_cons, List.flatten_cons, List.append_assoc, List.singleton_append]
    rw [pySplit_chunk sep p _ (h p (by simp)), ih (fun q hq => h q (by simp [hq]))]
    simp

/-- Python dict built by successive assignment then looked up: the LAST
entry with the given key wins. -/
def dictGet : List (List Nat × List (List Nat)) → List Nat → Option (List (List Nat))
  | [], _ => none
  | (k, v) :: rest, key =>
    match dictGet rest key with
    | some r => some r
    | none => if k = key then some v else none

theorem dictGet_none_of (key : List Nat) :
    ∀ l, (∀ p ∈ l, p.1 ≠ key) → dictGet l key = none := by
  intro l
  induction l with
  | nil => intro _; rfl
  | cons p rest ih =>
    intro h
    obtain ⟨k, v⟩ := p
    simp only [dictGet, ih (fun q hq => h q (by simp [hq]))]
    rw [if_neg (h (k, v) (by simp))]

theorem dictGet_append (key : List Nat) (xs ys : List (List Nat × List (List Nat))) :
    dictGet (xs ++ ys) key
      = match dictGet ys key with
        | some r => some r
        | none => dictGet xs key := by
  induction xs with
  | nil => simp [dictGet]; rcases dictGet ys key <;> rfl
  | cons p rest ih =>
    obtain ⟨k, v⟩ := p
    show dictGet ((k, v) :: (rest ++ ys)) key = _
    simp only [dictGet, ih]
    cases dictGet ys key
    · rfl
    · rfl

/-- One meta line parsed as in lines 1196-1198: key is the text before the
first comma (byte 44), value the comma-split of the rest. -/
def parseLine (mm : List Nat) : List Nat × List (List Nat) :=
  let mfind := strFind mm [44] none
  (pySlice mm 0 mfind, pySplit (pySlice mm (mfind + 1) (mm.length : Int)) 44)

/-- Lines 1194-1198: split the payload on newlines (byte 10) and build the
dict. -/
def parseMeta (payload : List Nat) : List (List Nat × List (List Nat)) :=
  (pySplit payload 10).map parseLine

theorem parseLine_eq (k v2 : List Nat) (hk : (44 : Nat) ∉ k) :
    parseLine (k ++ 44 :: v2) = (k, pySplit v2 44) := by
  have hfind : strFind (k ++ 44 :: v2) [44] none = (k.length : Int) := by
    have := findFrom_first k (44 :: v2) 44 [] (fun b hb => by
        intro hc; exact hk (hc ▸ hb))
      (by rw [List.isPrefixOf_iff_prefix]; exact ⟨v2, rfl⟩)
      ((k ++ 44 :: v2).length + 1) 0 (Nat.zero_le _) (by simp)
    simpa [strFind, findFrom] using this
  dsimp only [parseLine]
  rw [hfind]
  congr 1
  · rw [show (0 : Int) = ((0 : Nat) : Int) by norm_num, pySlice_natIdx]
    simp only [List.drop_zero, Nat.sub_zero]
    exact List.take_left' rfl
  · rw [show (k.length : Int) + 1 = ((k.length + 1 : Nat) : Int) by push_cast; ring]
    rw [pySlice_natIdx]
    rw [show k ++ 44 :: v2 = (k ++ [44]) ++ v2 by simp]
    rw [show k.length + 1 = (k ++ [(44 : Nat)]).length by simp]
    rw [List.drop_left]
    rw [List.take_of_length_le (by simp; omega)]

/-- the empty final piece parses to the `('' minus last char, [''])` entry
(`mfind = -1` makes `mm[0:-1]` empty and `mm[0:]` empty). -/
theorem parseLine_nil : parseLine [] = ([], [[]]) := by decide

theorem encI32_length (v : Int) : (encI32 v).length = 4 := rfl

theorem encI16_length (v : Int) : (encI16 v).length = 2 := rfl

theorem encI32_bytes_lt (v : Int) : ∀ b ∈ encI32 v, b < 256 := by
  intro b hb
  dsimp only [encI32] at hb
  simp only [List.mem_cons, List.not_mem_nil, or_false] at hb
  rcases hb with h | h | h | h <;> subst h <;> omega

theorem decI32_encI32 (v : Int) (h1 : -2147483648 ≤ v) (h2 : v < 2147483648) :
    decI32 (encI32 v) = v := by
  dsimp only [encI32, decI32]
  simp only [List.getD_cons_zero, List.getD_cons_succ]
  split <;> omega

theorem decI32_quad_inj (a0 a1 a2 a3 c0 c1 c2 c3 : Nat)
    (ha0 : a0 < 256) (ha1 : a1 < 256) (ha2 : a2 < 256) (ha3 : a3 < 256)
    (hc0 : c0 < 256) (hc1 : c1 < 256) (hc2 : c2 < 256) (hc3 : c3 < 256)
    (heq : decI32 [a0, a1, a2, a3] = decI32 [c0, c1, c2, c3]) :
    a0 = c0 ∧ a1 = c1 ∧ a2 = c2 ∧ a3 = c3 := by
  dsimp only [decI32] at heq
  simp only [List.getD_cons_zero, List.getD_cons_succ] at heq
  split at heq <;> split at heq <;> omega

/-- Per-channel summary of a decoded Zen3D file, as consumed by the
meta-data construction of write_cache_file (lines 1042-1056):
`date_time0` is `zt1.date_time[0]`, `df` is `int(zt1.df)`, the rest are
the corresponding `zt1` attributes. -/
structure ChanMeta where
  date_time0 : List Nat
  df : Nat
  ch_cmp : List Nat
  ch_length : List Nat
  ch_adcard_sn : List Nat
  ch_number : List Nat
  rx_stn : List Nat
  deriving DecidableEq, Repr

/-- `ZenCache._ch_factor` (line 863). -/
def ch_factor : List Nat := bs ("9.5367431640625e-10")

/-- `ZenCache._ch_gain` (line 864). -/
def ch_gain : List Nat := bs ("01-0")

/-- `ZenCache._ch_lowpass_dict` (lines 865-867); `none` is a KeyError on
lookup. -/
def ch_lowpass_dict (df : Nat) : Option (List Nat) :=
  if df = 256 then some (bs ("112"))
  else if df = 1024 then some (bs ("576"))
  else if df = 4096 then some (bs ("1792"))
  else none

/-- The fifteen `ZenCache.meta_data` entries that the per-file loop of
write_cache_file modifies; the other thirty-five keys keep the constant
initial values of lines 887-936 and are inlined in `metaValue`. -/
structure MetaData where
  dataDate0 : List Nat
  dataTime0 : List Nat
  tsAdfreq : List Nat
  tsNpnt : List Nat
  chFactor : List Nat
  chGain : List Nat
  chCmp : List Nat
  chLength : List Nat
  chExtgain : List Nat
  chNotch : List Nat
  chHighpass : List Nat
  chLowpass : List Nat
  chAdcardsn : List Nat
  chNumber : List Nat
  rxStn : List Nat
  deriving DecidableEq, Repr

/-- All fifteen variable entries start as the empty string (''). -/
def metaData0 : MetaData :=
  { dataDate0 := [], dataTime0 := [], tsAdfreq := [], tsNpnt := [],
    chFactor := [], chGain := [], chCmp := [], chLength := [], chExtgain := [],
    chNotch := [], chHighpass := [], chLowpass := [], chAdcardsn := [],
    chNumber := [], rxStn := [] }

/-- The fifty keys of `ZenCache.meta_data`, in source declaration order
(lines 887-936). -/
def metaKeys : List (List Nat) :=
  [bs ("SURVEY.ACQMETHOD"), bs ("SURVEY.TYPE"), bs ("LENGTH.UNITS"),
   bs ("DATA.DATE0"), bs ("DATA.TIME0"), bs ("TS.ADFREQ"), bs ("TS.NPNT"),
   bs ("CH.NUNOM"), bs ("CH.FACTOR"), bs ("CH.GAIN"), bs ("CH.NUMBER"),
   bs ("CH.CMP"), bs ("CH.LENGTH"), bs ("CH.EXTGAIN"), bs ("CH.NOTCH"),
   bs ("CH.HIGHPASS"), bs ("CH.LOWPASS"), bs ("CH.ADCARDSN"), bs ("CH.STATUS"),
   bs ("CH.SP"), bs ("CH.GDPSLOT"), bs ("RX.STN"), bs ("RX.AZIMUTH"),
   bs ("LINE.NAME"), bs ("LINE.NUMBER"), bs ("LINE.DIRECTION"), bs ("LINE.SPREAD"),
   bs ("JOB.NAME"), bs ("JOB.FOR"), bs ("JOB.BY"), bs ("JOB.NUMBER"),
   bs ("GDP.File"), bs ("GDP.SN"), bs ("GDP.TCARDSN"), bs ("GDP.NUMCARD"),
   bs ("GDP.ADCARDSN"), bs ("GDP.ADCARDSND"), bs ("GDP.CARDTYPE"), bs ("GDP.BAT"),
   bs ("GDP.TEMP"), bs ("GDP.HUMID"), bs ("TS.NCYCLE"), bs ("TS.NWAVEFORM"),
   bs ("TS.DECFAC"), bs ("TX.SN,NONE"), bs ("TX.STN"), bs ("TX.FREQ"),
   bs ("TX.DUTY"), bs ("TX.AMP"), bs ("TX.SHUNT")]

/-- The value `self.meta_data[key]` at write time. -/
def metaValue (md : MetaData) (k : List Nat) : List Nat :=
  if k = bs ("SURVEY.ACQMETHOD") then bs (",timeseries")
  else if k = bs ("LENGTH.UNITS") then bs (",m")
  else if k = bs ("DATA.DATE0") then md.dataDate0
  else if k = bs ("DATA.TIME0") then md.dataTime0
  else if k = bs ("TS.ADFREQ") then md.tsAdfreq
  else if k = bs ("TS.NPNT") then md.tsNpnt
  else if k = bs ("CH.FACTOR") then md.chFactor
  else if k = bs ("CH.GAIN") then md.chGain
  else if k = bs ("CH.NUMBER") then md.chNumber
  else if k = bs ("CH.CMP") then md.chCmp
  else if k = bs ("CH.LENGTH") then md.chLength
  else if k = bs ("CH.EXTGAIN") then md.chExtgain
  else if k = bs ("CH.NOTCH") then md.chNotch
  else if k = bs ("CH.HIGHPASS") then md.chHighpass
  else if k = bs ("CH.LOWPASS") then md.chLowpass
  else if k = bs ("CH.ADCARDSN") then md.chAdcardsn
  else if k = bs ("RX.STN") then md.rxStn
  else bs (",")

/-- Ascending lexicographic comparison on byte strings (np.sort order). -/
def lexLtB : List Nat → List Nat → Bool
  | [], [] => false
  | [], _ :: _ => true
  | _ :: _, [] => false
  | a :: as2, b :: bs2 =>
    if a < b then true else if b < a then false else lexLtB as2 bs2

def insertLex (x : List Nat) : List (List Nat) → List (List Nat)
  | [] => [x]
  | y :: ys => if lexLtB x y then x :: y :: ys else y :: insertLex x ys

def sortLex : List (List Nat) → List (List Nat)
  | [] => []
  | x :: xs => insertLex x (sortLex xs)

/-- `meta_str` (lines 1094-1095): one `key + value + '\n'` line per key,
keys in np.sort (ascending lexicographic) order. -/
def metaStr (md : MetaData) : List Nat :=
  ((sortLex metaKeys).map (fun k => k ++ metaValue md k ++ [10])).flatten

/-- The per-file meta_data update of lines 1042-1056.  `date_time[0]` is
split at commas for DATA.DATE0/DATA.TIME0 (an IndexError if there is no
comma); the lowpass entry is a dict lookup that can raise KeyError. -/
def updateMeta (md : MetaData) (c : ChanMeta) : Except PyExc MetaData := do
  let parts := pySplit c.date_time0 44
  if parts.length < 2 then throw .indexError
  else
    match ch_lowpass_dict c.df with
    | none => throw .keyError
    | some lowpass =>
      pure { md with
        dataDate0 := 44 :: parts.getD 0 []
        dataTime0 := 44 :: parts.getD 1 []
        tsAdfreq := 44 :: natDec c.df
        chFactor := md.chFactor ++ 44 :: ch_factor
        chGain := md.chGain ++ 44 :: ch_gain
        chCmp := md.chCmp ++ 44 :: c.ch_cmp.map byteUpper
        chLength := md.chLength ++ 44 :: c.ch_length
        chExtgain := md.chExtgain ++ 44 :: bs ("1")
        chNotch := md.chNotch ++ 44 :: bs ("NONE")
        chHighpass := md.chHighpass ++ 44 :: bs ("NONE")
        chLowpass := md.chLowpass ++ 44 :: lowpass
        chAdcardsn := md.chAdcardsn ++ 44 :: c.ch_adcard_sn
        chNumber := md.chNumber ++ 44 :: c.ch_number
        rxStn := md.rxStn ++ 44 :: c.rx_stn }

def buildMeta : MetaData → List ChanMeta → Except PyExc MetaData
  | md, [] => pure md
  | md, c :: rest => do buildMeta (← updateMeta md c) rest

/-- The repeated calibration block (lines 1106-1111). -/
def calBlock : List Nat :=
  bs (" 0.000000: ") ++ (List.replicate 3 (bs ("0.000000      0.000000,"))).flatten

def calData1 : List Nat :=
  bs ("HEADER.TYPE,Calibrate\nCAL.VER,019\nCAL.SYS,0000,")
    ++ (List.replicate 27 calBlock).flatten

def calData2 : List Nat :=
  bs ("\nCAL.SYS,0000,") ++ (List.replicate 27 calBlock).flatten

def calData (n_fn : Nat) : List Nat :=
  calData1 ++ (List.replicate (n_fn - 1) calData2).flatten

/-- `ZenCache.write_cache_file` (lines 1023-1153), modelled from the
per-channel summaries and the aligned sample matrix: builds `meta_data`
from each channel, checks the sampling rates (lines 1058-1059 via
check_sampling_rate), sets TS.NPNT from the aligned length (the matrix
`self.ts` and `ts_len` come from check_time_series on the already-decoded
channels), and emits the four length-delimited frames.  The file-name
handling and the on-disk I/O of lines 1066-1084 are outside the model. -/
def write_cache_file (chans : List ChanMeta) (ts : List (List Int)) :
    Except PyExc (List Nat) := do
  let md0 ← buildMeta metaData0 chans
  match chans with
  | [] => throw .valueError
  | c0 :: _ =>
    if chans.any (fun c => decide (c.df ≠ c0.df)) then throw .ioSamplingRate
    else
      let md := { md0 with tsNpnt := 44 :: natDec ts.length }
      let m := metaStr md
      let cal := calData chans.length
      pure (
        encI32 43 ++ encI32 (-1) ++ encI16 4 ++ List.replicate 41 0 ++ encI32 43
        ++ encI32 ((m.length : Int) + 2) ++ encI32 (-1) ++ encI16 514 ++ m
          ++ encI32 ((m.length : Int) + 2)
        ++ encI32 ((cal.length : Int) + 2) ++ encI32 (-1) ++ encI16 768
          ++ (cal.dropLast ++ [10]) ++ encI32 ((cal.length : Int) + 2)
        ++ encI32 ((ts.length * chans.length * 4 : Nat) + 2) ++ encI32 (-1) ++ encI16 16
          ++ (ts.map packRowTs).flatten
          ++ encI32 ((ts.length * chans.length * 4 : Nat) + 2))

/-- `np.fromstring` with `ZenCache._data_type` (10-byte records
`(len : int32, flag : int32, input_type : int16)`): ValueError when the
size is not a multiple of 10; the downstream uses of an empty or
multi-record block (array used as a slice index / ambiguous truth value)
also fail and are modelled at the decode site. -/
def fromstringBlock (b : List Nat) : Except PyExc (Int × Int × Int) :=
  if b.length % 10 ≠ 0 then .error .valueError
  else if b.length = 0 then .error .typeError
  else if 20 ≤ b.length then .error .typeError
  else .ok (decI32 (b.take 4), decI32 ((b.drop 4).take 4), decI16 ((b.drop 8).take 2))

/-- `np.fromstring(-, dtype=np.int32)` with its size check. -/
def fromstringI32s (b : List Nat) : Except PyExc (List Int) :=
  if b.length % 4 ≠ 0 then .error .valueError else .ok (decI32List b)

/-- The truth value of `array != scalar` as used by the length checks:
empty arrays are numpy-False (old numpy), a single element compares, more
elements are an ambiguous truth value (ValueError). -/
def arrayNeScalar (xs : List Int) (v : Int) : Except PyExc Bool :=
  match xs with
  | [] => .ok false
  | [x] => .ok (decide (x ≠ v))
  | _ => .error .valueError

/-- What `ZenCache.read_cache` leaves behind: `self.nav_data`,
`self.meta_data`, `self.cal_data`, the reshaped `self.ts`, and the local
channel count used for the reshape. -/
structure CacheResult where
  nav_data : List Int
  meta_data : List (List Nat × List (List Nat))
  cal_data : List Nat
  ts : List (List Int)
  num_chn : Nat
  deriving DecidableEq, Repr

/-- The block pattern repeated for the navigation, meta and calibration
frames of read_cache (lines 1169-1229): read the 10-byte header at `ii`,
slice the payload of `len - 2` bytes, read the trailing 4-byte length and
compare it with the header length (raising `eTag` on disagreement);
returns the payload slice and the index just past the trailing field. -/
def readBlockAt (cdata : List Nat) (ii : Int) (eTag : PyExc) :
    Except PyExc (List Nat × Int) := do
  let blk ← fromstringBlock (pySlice cdata ii (ii + 10))
  let ii2 : Int := ii + 10
  let jj : Int := ii2 + blk.1 - 2
  let pay := pySlice cdata ii2 jj
  let len_check ← fromstringI32s (pySlice cdata jj (jj + 4))
  if ← arrayNeScalar len_check blk.1 then throw eTag
  else pure (pay, jj + 4)

/-- `ZenCache.read_cache` (lines 1156-1253), with the source's index
arithmetic (`_stamp_len = 10`): four frames, each length-checked against
its trailing length field; the time-series frame is decoded and reshaped
by the channel count taken from the parsed CH.CMP entry BEFORE its
trailing length check. -/
def read_cache (cdata : List Nat) : Except PyExc CacheResult := do
  let (nav_pay, i1) ← readBlockAt cdata 0 .ioNavLen
  let nav_data := nav_pay.map byteToI8
  let (meta_pay, i2) ← readBlockAt cdata i1 .ioMetaLen
  let meta_data := parseMeta meta_pay
  let (cal_data, i3) ← readBlockAt cdata i2 .ioCalLen
  let ts_block ← fromstringBlock (pySlice cdata i3 (i3 + 10))
  let ii : Int := i3 + 10
  let jj : Int := ii + ts_block.1 - 2
  let tsflat ← fromstringI32s (pySlice cdata ii jj)
  match dictGet meta_data (bs ("CH.CMP")) with
  | none => throw .keyError
  | some comps =>
    let num_chn := comps.length
    if num_chn = 0 then throw .zeroDivision
    else if tsflat.length % num_chn ≠ 0 then throw .reshapeError
    else do
      let tsM := chunkRows num_chn tsflat
      let ts_len_check ← fromstringI32s (pySlice cdata jj (jj + 4))
      if ← arrayNeScalar ts_len_check ts_block.1 then throw .ioTsLen
      else pure ⟨nav_data, meta_data, cal_data, tsM, num_chn⟩

/-! ## Evaluation of read_cache on a four-frame container -/

/-- One length-delimited frame as emitted by write_cache_file: leading
int32 length, int32 flag, int16 type tag, payload, trailing 4 bytes. -/
def mkFrame (L ty : Int) (pay trail : List Nat) : List Nat :=
  (encI32 L ++ (encI32 (-1) ++ encI16 ty)) ++ (pay ++ trail)

theorem pySlice_at (xs pre seg rest : List Nat) (a b : Int)
    (hx : xs = pre ++ (seg ++ rest)) (ha : a = (pre.length : Int))
    (hb : b = (pre.length : Int) + (seg.length : Int)) :
    pySlice xs a b = seg := by
  subst hx; subst ha; subst hb
  have h2 : ((pre.length : Int) + (seg.length : Int))
      = ((pre.length + seg.length : Nat) : Int) := by push_cast; ring
  rw [h2, pySlice_natIdx, Nat.add_sub_cancel_left, List.drop_left]
  exact List.take_left' rfl

theorem fromstringBlock_hdr (L ty : Int) :
    fromstringBlock (encI32 L ++ (encI32 (-1) ++ encI16 ty))
      = .ok (decI32 (encI32 L), decI32 (encI32 (-1)), decI16 (encI16 ty)) := by
  have hlen : (encI32 L ++ (encI32 (-1) ++ encI16 ty)).length = 10 := by
    simp [encI32_length, encI16_length]
  have t1 : (encI32 L ++ (encI32 (-1) ++ encI16 ty)).take 4 = encI32 L :=
    List.take_left' (encI32_length L)
  have d4 : (encI32 L ++ (encI32 (-1) ++ encI16 ty)).drop 4
      = encI32 (-1) ++ encI16 ty :=
    List.drop_left' (encI32_length L)
  have t2 : (encI32 (-1) ++ encI16 ty).take 4 = encI32 (-1) :=
    List.take_left' (encI32_length (-1))
  have d8 : (encI32 L ++ (encI32 (-1) ++ encI16 ty)).drop 8 = encI16 ty := by
    rw [show (8 : Nat) = 4 + 4 from rfl, ← List.drop_drop, d4]
    exact List.drop_left' (encI32_length (-1))
  have t3 : (encI16 ty).take 2 = encI16 ty :=
    List.take_of_length_le (le_of_eq (encI16_length ty))
  dsimp only [fromstringBlock]
  rw [if_neg (by rw [hlen]; norm_num), if_neg (by rw [hlen]; norm_num),
      if_neg (by rw [hlen]; norm_num), t1, d4, t2, d8, t3]

theorem fromstringI32s_quad (t : List Nat) (ht : t.length = 4) :
    fromstringI32s t = .ok [decI32 t] := by
  rcases t with _ | ⟨a, t⟩; · simp at ht
  rcases t with _ | ⟨b, t⟩; · simp at ht
  rcases t with _ | ⟨c, t⟩; · simp at ht
  rcases t with _ | ⟨d, t⟩; · simp at ht
  rcases t with _ | ⟨e, t⟩
  · simp [fromstringI32s, decI32List]
  · simp at ht

theorem fromstringI32s_mod (b : List Nat) (h : b.length % 4 = 0) :
    fromstringI32s b = .ok (decI32List b) := by
  simp [fromstringI32s, h]

theorem arrayNeScalar_one (x v : Int) :
    arrayNeScalar [x] v = .ok (decide (x ≠ v)) := rfl

theorem excBindErr {ε α β : Type} (e : ε) (f : α → Except ε β) :
    (Except.error e : Except ε α) >>= f = .error e := rfl

theorem excThrow {ε α : Type} (e : ε) : (throw e : Except ε α) = .error e := rfl

theorem readBlockAt_frame (cdata pre p t rest : List Nat) (ty ii : Int)
    (eTag : PyExc)
    (hx : cdata = pre ++ (mkFrame ((p.length : Int) + 2) ty p t ++ rest))
    (hii : ii = (pre.length : Int))
    (ht : t.length = 4) (hb : (p.length : Int) + 2 < 2147483648) :
    readBlockAt cdata ii eTag
      = if decI32 t ≠ (p.length : Int) + 2 then .error eTag
        else .ok (p, ((pre.length + 14 + p.length : Nat) : Int)) := by
  subst hx; subst hii
  have hL : decI32 (encI32 ((p.length : Int) + 2)) = (p.length : Int) + 2 :=
    decI32_encI32 _ (by omega) hb
  have e1 : pySlice (pre ++ (mkFrame ((p.length : Int) + 2) ty p t ++ rest))
      (pre.length : Int) ((pre.length : Int) + 10)
      = encI32 ((p.length : Int) + 2) ++ (encI32 (-1) ++ encI16 ty) :=
    pySlice_at _ pre _ (p ++ (t ++ rest)) _ _
      (by simp only [mkFrame, List.append_assoc]) rfl
      (by simp only [List.length_append, encI32_length, encI16_length]; push_cast; ring)
  have e2 : pySlice (pre ++ (mkFrame ((p.length : Int) + 2) ty p t ++ rest))
      ((pre.length : Int) + 10)
      ((pre.length : Int) + 10 + ((p.length : Int) + 2) - 2) = p :=
    pySlice_at _ (pre ++ (encI32 ((p.length : Int) + 2) ++ (encI32 (-1) ++ encI16 ty)))
      p (t ++ rest) _ _
      (by simp only [mkFrame, List.append_assoc])
      (by simp only [List.length_append, encI32_length, encI16_length]; push_cast; ring)
      (by simp only [List.length_append, encI32_length, encI16_length]; push_cast; ring)
  have e3 : pySlice (pre ++ (mkFrame ((p.length : Int) + 2) ty p t ++ rest))
      ((pre.length : Int) + 10 + ((p.length : Int) + 2) - 2)
      ((pre.length : Int) + 10 + ((p.length : Int) + 2) - 2 + 4) = t :=
    pySlice_at _
      (pre ++ ((encI32 ((p.length : Int) + 2) ++ (encI32 (-1) ++ encI16 ty)) ++ p))
      t rest _ _
      (by simp only [mkFrame, List.append_assoc])
      (by simp only [List.length_append, encI32_length, encI16_length]; push_cast; ring)
      (by simp only [List.length_append, encI32_length, encI16_length, ht]
          push_cast; ring)
  have hq : fromstringI32s t = .ok [decI32 t] := fromstringI32s_quad t ht
  have hxy : ((pre.length : Int) + 10 + ((p.length : Int) + 2) - 2 + 4 : Int)
      = ((pre.length + 14 + p.length : Nat) : Int) := by push_cast; ring
  simp only [readBlockAt, e1, fromstringBlock_hdr, excBind_ok, hL, e2, e3, hq,
    arrayNeScalar_one, decide_eq_true_eq, excThrow, excPure]
  simp only [hxy]

theorem read_cache_container
    (p1 p2 p3 p4 t1 t2 t3 t4 : List Nat) (ty1 ty2 ty3 ty4 : Int)
    (comps : List (List Nat))
    (ht1 : t1.length = 4) (ht2 : t2.length = 4) (ht3 : t3.length = 4)
    (ht4 : t4.length = 4)
    (hb1 : (p1.length : Int) + 2 < 2147483648)
    (hb2 : (p2.length : Int) + 2 < 2147483648)
    (hb3 : (p3.length : Int) + 2 < 2147483648)
    (hb4 : (p4.length : Int) + 2 < 2147483648)
    (hcc : dictGet (parseMeta p2) (bs ("CH.CMP")) = some comps)
    (hnz : comps ≠ [])
    (hmod : p4.length % 4 = 0) :
    read_cache (mkFrame ((p1.length : Int) + 2) ty1 p1 t1
        ++ (mkFrame ((p2.length : Int) + 2) ty2 p2 t2
        ++ (mkFrame ((p3.length : Int) + 2) ty3 p3 t3
        ++ mkFrame ((p4.length : Int) + 2) ty4 p4 t4)))
      = if decI32 t1 ≠ (p1.length : Int) + 2 then .error .ioNavLen
        else if decI32 t2 ≠ (p2.length : Int) + 2 then .error .ioMetaLen
        else if decI32 t3 ≠ (p3.length : Int) + 2 then .error .ioCalLen
        else if (decI32List p4).length % comps.length ≠ 0 then .error .reshapeError
        else if decI32 t4 ≠ (p4.length : Int) + 2 then .error .ioTsLen
        else .ok ⟨p1.map byteToI8, parseMeta p2, p3,
                  chunkRows comps.length (decI32List p4), comps.length⟩ := by
  set cdata := mkFrame ((p1.length : Int) + 2) ty1 p1 t1
      ++ (mkFrame ((p2.length : Int) + 2) ty2 p2 t2
      ++ (mkFrame ((p3.length : Int) + 2) ty3 p3 t3
      ++ mkFrame ((p4.length : Int) + 2) ty4 p4 t4)) with hcd
  have hf1 := readBlockAt_frame cdata [] p1 t1
      (mkFrame ((p2.length : Int) + 2) ty2 p2 t2
        ++ (mkFrame ((p3.length : Int) + 2) ty3 p3 t3
        ++ mkFrame ((p4.length : Int) + 2) ty4 p4 t4)) ty1 0 .ioNavLen
      (by rw [hcd]; simp only [List.nil_append]) (by simp) ht1 hb1
  rcases eq_or_ne (decI32 t1) ((p1.length : Int) + 2) with h1 | h1
  swap
  · have hf1' : readBlockAt cdata 0 .ioNavLen = .error .ioNavLen := by
      rw [hf1, if_pos h1]
    rw [if_pos h1]
    simp only [read_cache, hf1', excBindErr]
  · rw [if_neg (not_ne_iff.mpr h1)]
    have hf1' : readBlockAt cdata 0 .ioNavLen
        = .ok (p1, ((List.length ([] : List Nat) + 14 + p1.length : Nat) : Int)) := by
      rw [hf1, if_neg (not_ne_iff.mpr h1)]
    have hf2 := readBlockAt_frame cdata (mkFrame ((p1.length : Int) + 2) ty1 p1 t1)
        p2 t2
        (mkFrame ((p3.length : Int) + 2) ty3 p3 t3
          ++ mkFrame ((p4.length : Int) + 2) ty4 p4 t4) ty2
        ((List.length ([] : List Nat) + 14 + p1.length : Nat) : Int) .ioMetaLen
        (by rw [hcd])
        (by simp only [mkFrame, List.length_append, List.length_nil,
              encI32_length, encI16_length, ht1]; push_cast; ring)
        ht2 hb2
    rcases eq_or_ne (decI32 t2) ((p2.length : Int) + 2) with h2 | h2
    swap
    · rw [if_pos h2]
      have hf2' : readBlockAt cdata
          ((List.length ([] : List Nat) + 14 + p1.length : Nat) : Int) .ioMetaLen
          = .error .ioMetaLen := by
        rw [hf2, if_pos h2]
      simp only [read_cache, hf1', excBind_ok, hf2', excBindErr]
    · rw [if_neg (not_ne_iff.mpr h2)]
      have hf2' : readBlockAt cdata
          ((List.length ([] : List Nat) + 14 + p1.length : Nat) : Int) .ioMetaLen
          = .ok (p2, (((mkFrame ((p1.length : Int) + 2) ty1 p1 t1).length
              + 14 + p2.length : Nat) : Int)) := by
        rw [hf2, if_neg (not_ne_iff.mpr h2)]
      have hf3 := readBlockAt_frame cdata
          (mkFrame ((p1.length : Int) + 2) ty1 p1 t1
            ++ mkFrame ((p2.length : Int) + 2) ty2 p2 t2)
          p3 t3
          (mkFrame ((p4.length : Int) + 2) ty4 p4 t4) ty3
          (((mkFrame ((p1.length : Int) + 2) ty1 p1 t1).length
              + 14 + p2.length : Nat) : Int) .ioCalLen
          (by rw [hcd]; simp only [List.append_assoc])
          (by simp only [mkFrame, List.length_append,
                encI32_length, encI16_length, ht1, ht2]; push_cast; ring)
          ht3 hb3
      rcases eq_or_ne (decI32 t3) ((p3.length : Int) + 2) with h3 | h3
      swap
      · rw [if_pos h3]
        have hf3' : readBlockAt cdata
            (((mkFrame ((p1.length : Int) + 2) ty1 p1 t1).length
                + 14 + p2.length : Nat) : Int) .ioCalLen
            = .error .ioCalLen := by
          rw [hf3, if_pos h3]
        simp only [read_cache, hf1', excBind_ok, hf2', hf3', excBindErr]
      · rw [if_neg (not_ne_iff.mpr h3)]
        have hf3' : readBlockAt cdata
            (((mkFrame ((p1.length : Int) + 2) ty1 p1 t1).length
                + 14 + p2.length : Nat) : Int) .ioCalLen
            = .ok (p3, (((mkFrame ((p1.length : Int) + 2) ty1 p1 t1
                ++ mkFrame ((p2.length : Int) + 2) ty2 p2 t2).length
                + 14 + p3.length : Nat) : Int)) := by
          rw [hf3, if_neg (not_ne_iff.mpr h3)]
        have hL4 : decI32 (encI32 ((p4.length : Int) + 2)) = (p4.length : Int) + 2 :=
          decI32_encI32 _ (by omega) hb4
        have e4 : pySlice cdata
            (((mkFrame ((p1.length : Int) + 2) ty1 p1 t1
                ++ mkFrame ((p2.length : Int) + 2) ty2 p2 t2).length
                + 14 + p3.length : Nat) : Int)
            ((((mkFrame ((p1.length : Int) + 2) ty1 p1 t1
                ++ mkFrame ((p2.length : Int) + 2) ty2 p2 t2).length
                + 14 + p3.length : Nat) : Int) + 10)
            = encI32 ((p4.length : Int) + 2) ++ (encI32 (-1) ++ encI16 ty4) :=
          pySlice_at _
            (mkFrame ((p1.length : Int) + 2) ty1 p1 t1
              ++ (mkFrame ((p2.length : Int) + 2) ty2 p2 t2
              ++ mkFrame ((p3.length : Int) + 2) ty3 p3 t3))
            _ (p4 ++ t4) _ _
            (by rw [hcd]; simp only [mkFrame, List.append_assoc])
            (by simp only [mkFrame, List.length_append,
                  encI32_length, encI16_length, ht1, ht2, ht3]; push_cast; ring)
            (by simp only [mkFrame, List.length_append,
                  encI32_length, encI16_length, ht1, ht2, ht3]; push_cast; ring)
        have e5 : pySlice cdata
            ((((mkFrame ((p1.length : Int) + 2) ty1 p1 t1
                ++ mkFrame ((p2.length : Int) + 2) ty2 p2 t2).length
                + 14 + p3.length : Nat) : Int) + 10)
            ((((mkFrame ((p1.length : Int) + 2) ty1 p1 t1
                ++ mkFrame ((p2.length : Int) + 2) ty2 p2 t2).length
                + 14 + p3.length : Nat) : Int) + 10 + ((p4.length : Int) + 2) - 2)
            = p4 :=
          pySlice_at _
            (mkFrame ((p1.length : Int) + 2) ty1 p1 t1
              ++ (mkFrame ((p2.length : Int) + 2) ty2 p2 t2
              ++ (mkFrame ((p3.length : Int) + 2) ty3 p3 t3
              ++ (encI32 ((p4.length : Int) + 2) ++ (encI32 (-1) ++ encI16 ty4)))))
            p4 t4 _ _
            (by rw [hcd]; simp only [mkFrame, List.append_assoc])
            (by simp only [mkFrame, List.length_append,
                  encI32_length, encI16_length, ht1, ht2, ht3]; push_cast; ring)
            (by simp only [mkFrame, List.length_append,
                  encI32_length, encI16_length, ht1, ht2, ht3]; push_cast; ring)
        have e6 : pySlice cdata
            ((((mkFrame ((p1.length : Int) + 2) ty1 p1 t1
                ++ mkFrame ((p2.length : Int) + 2) ty2 p2 t2).length
                + 14 + p3.length : Nat) : Int) + 10 + ((p4.length : Int) + 2) - 2)
            ((((mkFrame ((p1.length : Int) + 2) ty1 p1 t1
                ++ mkFrame ((p2.length : Int) + 2) ty2 p2 t2).length
                + 14 + p3.length : Nat) : Int) + 10 + ((p4.length : Int) + 2) - 2 + 4)
            = t4 :=
          pySlice_at _
            (mkFrame ((p1.length : Int) + 2) ty1 p1 t1
              ++ (mkFrame ((p2.length : Int) + 2) ty2 p2 t2
              ++ (mkFrame ((p3.length : Int) + 2) ty3 p3 t3
              ++ ((encI32 ((p4.length : Int) + 2) ++ (encI32 (-1) ++ encI16 ty4))
                  ++ p4))))
            t4 [] _ _
            (by rw [hcd]; simp only [mkFrame, List.append_assoc, List.append_nil])
            (by simp only [mkFrame, List.length_append,
                  encI32_length, encI16_length, ht1, ht2, ht3]; push_cast; ring)
            (by simp only [mkFrame, List.length_append,
                  encI32_length, encI16_length, ht1, ht2, ht3, ht4]; push_cast; ring)
        have hq4 : fromstringI32s p4 = .ok (decI32List p4) :=
          fromstringI32s_mod p4 hmod
        have hqt4 : fromstringI32s t4 = .ok [decI32 t4] := fromstringI32s_quad t4 ht4
        have hnz' : ¬(comps.length = 0) :=
          fun hc => hnz (List.length_eq_zero.mp hc)
        simp only [read_cache, hf1', excBind_ok, hf2', hf3', e4, fromstringBlock_hdr,
          hL4, e5, hq4, hcc, e6, hqt4, arrayNeScalar_one, decide_eq_true_eq,
          excThrow, excPure, if_neg hnz']

/-! ## Structure of the written meta-data string -/

theorem natDecGo_digits : ∀ fuel n, ∀ b ∈ natDecGo fuel n, 48 ≤ b ∧ b ≤ 57 := by
  intro fuel
  induction fuel with
  | zero => intro n b hb; simp [natDecGo] at hb
  | succ f ih =>
    intro n b hb
    dsimp only [natDecGo] at hb
    by_cases h : n < 10
    · rw [if_pos h] at hb
      simp only [List.mem_singleton] at hb
      omega
    · rw [if_neg h] at hb
      rcases List.mem_append.mp hb with h1 | h1
      · exact ih _ b h1
      · simp only [List.mem_singleton] at h1
        have : n % 10 < 10 := Nat.mod_lt n (by omega)
        omega

theorem natDec_digits (n : Nat) : ∀ b ∈ natDec n, 48 ≤ b ∧ b ≤ 57 :=
  natDecGo_digits (n + 1) n

theorem getD_mem (l : List (List Nat)) (n : Nat) (h : n < l.length) :
    l.getD n [] ∈ l := by
  rw [List.getD_eq_getElem l [] h]
  exact List.getElem_mem h

theorem pySplit_ne_nil (l : List Nat) (sep : Nat) : pySplit l sep ≠ [] := by
  cases l with
  | nil => simp [pySplit]
  | cons x rest =>
    dsimp only [pySplit]
    split
    · simp
    · cases h : pySplit rest sep <;> simp

theorem pySplit_mem_subset (sep : Nat) :
    ∀ (l : List Nat), ∀ p ∈ pySplit l sep, ∀ b ∈ p, b ∈ l := by
  intro l
  induction l with
  | nil =>
    intro p hp b hb
    simp only [pySplit, List.mem_singleton] at hp
    subst hp; simp at hb
  | cons x rest ih =>
    intro p hp b hb
    dsimp only [pySplit] at hp
    by_cases hx : x = sep
    · rw [if_pos hx] at hp
      rcases List.mem_cons.mp hp with h1 | h1
      · subst h1; simp at hb
      · exact List.mem_cons_of_mem x (ih p h1 b hb)
    · rw [if_neg hx] at hp
      cases hsplit : pySplit rest sep with
      | nil => exact absurd hsplit (pySplit_ne_nil rest sep)
      | cons hh tt =>
        rw [hsplit] at hp
        rcases List.mem_cons.mp hp with h1 | h1
        · subst h1
          rcases List.mem_cons.mp hb with h2 | h2
          · simp [h2]
          · exact List.mem_cons_of_mem x
              (ih hh (hsplit ▸ List.mem_cons_self hh tt) b h2)
        · exact List.mem_cons_of_mem x
            (ih p (hsplit ▸ List.mem_cons_of_mem hh h1) b hb)

theorem pySplit_len2 (sep : Nat) :
    ∀ (l : List Nat), sep ∈ l → 2 ≤ (pySplit l sep).length := by
  intro l
  induction l with
  | nil => intro h; simp at h
  | cons x rest ih =>
    intro h
    dsimp only [pySplit]
    by_cases hx : x = sep
    · rw [if_pos hx]
      simp only [List.length_cons]
      have := pySplit_ne_nil rest sep
      cases hsplit : pySplit rest sep with
      | nil => exact absurd hsplit this
      | cons hh tt => simp
    · rw [if_neg hx]
      have hmem : sep ∈ rest := by
        rcases List.mem_cons.mp h with h1 | h1
        · exact absurd h1.symm hx
        · exact h1
      cases hsplit : pySplit rest sep with
      | nil => exact absurd hsplit (pySplit_ne_nil rest sep)
      | cons hh tt =>
        have := ih hmem
        rw [hsplit] at this
        simp only [List.length_cons] at this ⊢
        omega

theorem pySplit_comma_chain (x : List Nat) (xs : List (List Nat))
    (hx : (44 : Nat) ∉ x) (hxs : ∀ y ∈ xs, (44 : Nat) ∉ y) :
    pySplit (x ++ (xs.map (fun y => 44 :: y)).flatten) 44 = x :: xs := by
  induction xs generalizing x with
  | nil =>
    simp only [List.map_nil, List.flatten_nil, List.append_nil]
    exact pySplit_sepFree 44 x hx
  | cons y ys ih =>
    simp only [List.map_cons, List.flatten_cons]
    have hre : x ++ ((44 :: y) ++ (ys.map (fun y => 44 :: y)).flatten)
        = x ++ 44 :: (y ++ (ys.map (fun y => 44 :: y)).flatten) := by
      simp
    rw [hre, pySplit_chunk 44 x _ hx,
        ih y (hxs y (by simp)) (fun z hz => hxs z (by simp [hz]))]

theorem byteUpper_no10 (l : List Nat) (h : (10 : Nat) ∉ l) :
    (10 : Nat) ∉ l.map byteUpper := by
  intro hc
  rcases List.mem_map.mp hc with ⟨a, ha, hab⟩
  dsimp only [byteUpper] at hab
  split at hab
  · omega
  · exact h (hab ▸ ha)

/-- Invariant on a meta_data field while the per-file loop is running:
empty or comma-headed, and newline-free. -/
def fieldPre (l : List Nat) : Prop := (l = [] ∨ ∃ t, l = 44 :: t) ∧ (10 : Nat) ∉ l

/-- A fully built field: comma-headed and newline-free. -/
def fieldHead (l : List Nat) : Prop := (∃ t, l = 44 :: t) ∧ (10 : Nat) ∉ l

def mdPre (md : MetaData) : Prop :=
  fieldPre md.dataDate0 ∧ fieldPre md.dataTime0 ∧ fieldPre md.tsAdfreq ∧
  fieldPre md.tsNpnt ∧ fieldPre md.chFactor ∧ fieldPre md.chGain ∧
  fieldPre md.chCmp ∧ fieldPre md.chLength ∧ fieldPre md.chExtgain ∧
  fieldPre md.chNotch ∧ fieldPre md.chHighpass ∧ fieldPre md.chLowpass ∧
  fieldPre md.chAdcardsn ∧ fieldPre md.chNumber ∧ fieldPre md.rxStn

/-- All fourteen fields touched by the per-file loop are comma-headed. -/
def mdHead (md : MetaData) : Prop :=
  fieldHead md.dataDate0 ∧ fieldHead md.dataTime0 ∧ fieldHead md.tsAdfreq ∧
  fieldHead md.chFactor ∧ fieldHead md.chGain ∧
  fieldHead md.chCmp ∧ fieldHead md.chLength ∧ fieldHead md.chExtgain ∧
  fieldHead md.chNotch ∧ fieldHead md.chHighpass ∧ fieldHead md.chLowpass ∧
  fieldHead md.chAdcardsn ∧ fieldHead md.chNumber ∧ fieldHead md.rxStn

/-- The per-channel side conditions under which the write path produces a
well-formed file: the date_time string contains the comma separating date
from time, no text field contains a newline, the component name is
comma-free, and the sampling rate is one of the three the lowpass dict
knows. -/
def chanOk (c : ChanMeta) : Prop :=
  (44 : Nat) ∈ c.date_time0 ∧ (10 : Nat) ∉ c.date_time0 ∧
  (c.df = 256 ∨ c.df = 1024 ∨ c.df = 4096) ∧
  (10 : Nat) ∉ c.ch_cmp ∧ (44 : Nat) ∉ c.ch_cmp ∧
  (10 : Nat) ∉ c.ch_length ∧ (10 : Nat) ∉ c.ch_adcard_sn ∧
  (10 : Nat) ∉ c.ch_number ∧ (10 : Nat) ∉ c.rx_stn

instance (c : ChanMeta) : Decidable (chanOk c) := by
  unfold chanOk; infer_instance

theorem fieldPre_append (l x : List Nat) (hl : fieldPre l) (hx : (10 : Nat) ∉ x) :
    fieldHead (l ++ 44 :: x) := by
  obtain ⟨hd, h10⟩ := hl
  constructor
  · rcases hd with h | ⟨t, ht⟩
    · subst h; exact ⟨x, rfl⟩
    · subst ht; exact ⟨t ++ 44 :: x, rfl⟩
  · intro hc
    rcases List.mem_append.mp hc with h | h
    · exact h10 h
    · rcases List.mem_cons.mp h with h | h
      · omega
      · exact hx h

theorem fieldHead_pre (l : List Nat) (h : fieldHead l) : fieldPre l :=
  ⟨Or.inr h.1, h.2⟩

theorem updateMeta_spec (md : MetaData) (c : ChanMeta) (hc : chanOk c)
    (hmd : mdPre md) :
    ∃ md', updateMeta md c = .ok md' ∧ mdPre md' ∧ mdHead md' ∧
      md'.chCmp = md.chCmp ++ 44 :: c.ch_cmp.map byteUpper ∧
      md'.tsNpnt = md.tsNpnt := by
  obtain ⟨hdt44, hdt10, hdf, hcmp10, hcmp44, hlen10, hadc10, hnum10, hrx10⟩ := hc
  obtain ⟨f1, f2, f3, f4, f5, f6, f7, f8, f9, f10', f11, f12, f13, f14, f15⟩ := hmd
  have hparts : 2 ≤ (pySplit c.date_time0 44).length := pySplit_len2 44 _ hdt44
  obtain ⟨lp, hlp, hlp10⟩ : ∃ lp, ch_lowpass_dict c.df = some lp ∧ (10 : Nat) ∉ lp := by
    rcases hdf with h | h | h <;> rw [h] <;> exact ⟨_, rfl, by decide⟩
  have hsub : ∀ n, n < (pySplit c.date_time0 44).length →
      (10 : Nat) ∉ 44 :: (pySplit c.date_time0 44).getD n [] := by
    intro n hn hmem
    rcases List.mem_cons.mp hmem with h | h
    · omega
    · exact hdt10 (pySplit_mem_subset 44 _ _ (getD_mem _ n hn) _ h)
  simp only [updateMeta]
  rw [if_neg (by omega), hlp]
  refine ⟨_, rfl, ?_, ?_, rfl, rfl⟩
  · exact ⟨⟨Or.inr ⟨_, rfl⟩, hsub 0 (by omega)⟩,
      ⟨Or.inr ⟨_, rfl⟩, hsub 1 (by omega)⟩,
      ⟨Or.inr ⟨_, rfl⟩, by
        intro hm
        rcases List.mem_cons.mp hm with h | h
        · omega
        · have := natDec_digits c.df _ h; omega⟩,
      f4,
      fieldHead_pre _ (fieldPre_append _ _ f5 (by decide)),
      fieldHead_pre _ (fieldPre_append _ _ f6 (by decide)),
      fieldHead_pre _ (fieldPre_append _ _ f7 (byteUpper_no10 _ hcmp10)),
      fieldHead_pre _ (fieldPre_append _ _ f8 hlen10),
      fieldHead_pre _ (fieldPre_append _ _ f9 (by decide)),
      fieldHead_pre _ (fieldPre_append _ _ f10' (by decide)),
      fieldHead_pre _ (fieldPre_append _ _ f11 (by decide)),
      fieldHead_pre _ (fieldPre_append _ _ f12 hlp10),
      fieldHead_pre _ (fieldPre_append _ _ f13 hadc10),
      fieldHead_pre _ (fieldPre_append _ _ f14 hnum10),
      fieldHead_pre _ (fieldPre_append _ _ f15 hrx10)⟩
  · exact ⟨⟨⟨_, rfl⟩, hsub 0 (by omega)⟩,
      ⟨⟨_, rfl⟩, hsub 1 (by omega)⟩,
      ⟨⟨_, rfl⟩, by
        intro hm
        rcases List.mem_cons.mp hm with h | h
        · omega
        · have := natDec_digits c.df _ h; omega⟩,
      fieldPre_append _ _ f5 (by decide),
      fieldPre_append _ _ f6 (by decide),
      fieldPre_append _ _ f7 (byteUpper_no10 _ hcmp10),
      fieldPre_append _ _ f8 hlen10,
      fieldPre_append _ _ f9 (by decide),
      fieldPre_append _ _ f10' (by decide),
      fieldPre_append _ _ f11 (by decide),
      fieldPre_append _ _ f12 hlp10,
      fieldPre_append _ _ f13 hadc10,
      fieldPre_append _ _ f14 hnum10,
      fieldPre_append _ _ f15 hrx10⟩

theorem buildMeta_spec :
    ∀ (chans : List ChanMeta), (∀ c ∈ chans, chanOk c) →
    ∀ md : MetaData, mdPre md →
      ∃ md', buildMeta md chans = .ok md' ∧ mdPre md' ∧
        md'.chCmp
          = md.chCmp ++ (chans.map (fun c => 44 :: c.ch_cmp.map byteUpper)).flatten ∧
        md'.tsNpnt = md.tsNpnt ∧
        (chans ≠ [] → mdHead md') ∧ (mdHead md → mdHead md') := by
  intro chans
  induction chans with
  | nil =>
    intro _ md hmd
    exact ⟨md, rfl, hmd, by simp, rfl, fun h => absurd rfl h, id⟩
  | cons c rest ih =>
    intro hck md hmd
    obtain ⟨md1, hstep, hpre1, hhead1, hcmp1, hnpnt1⟩ :=
      updateMeta_spec md c (hck c (by simp)) hmd
    obtain ⟨md', hrest, hpre', hcmp', hnpnt', _hne', hpres'⟩ :=
      ih (fun c' hc' => hck c' (by simp [hc'])) md1 hpre1
    refine ⟨md', ?_, hpre', ?_, ?_, ?_, ?_⟩
    · dsimp only [buildMeta]
      rw [hstep, excBind_ok, hrest]
    · rw [hcmp', hcmp1]
      simp [List.append_assoc]
    · rw [hnpnt', hnpnt1]
    · exact fun _ => hpres' hhead1
    · exact fun _ => hpres' hhead1

/-- The forty-eight keys that follow CH.ADCARDSN and CH.CMP in ascending
lexicographic (np.sort) order. -/
def sortedKeysRest : List (List Nat) :=
  [bs ("CH.EXTGAIN"), bs ("CH.FACTOR"), bs ("CH.GAIN"), bs ("CH.GDPSLOT"),
   bs ("CH.HIGHPASS"), bs ("CH.LENGTH"), bs ("CH.LOWPASS"), bs ("CH.NOTCH"),
   bs ("CH.NUMBER"), bs ("CH.NUNOM"), bs ("CH.SP"), bs ("CH.STATUS"),
   bs ("DATA.DATE0"), bs ("DATA.TIME0"), bs ("GDP.ADCARDSN"), bs ("GDP.ADCARDSND"),
   bs ("GDP.BAT"), bs ("GDP.CARDTYPE"), bs ("GDP.File"), bs ("GDP.HUMID"),
   bs ("GDP.NUMCARD"), bs ("GDP.SN"), bs ("GDP.TCARDSN"), bs ("GDP.TEMP"),
   bs ("JOB.BY"), bs ("JOB.FOR"), bs ("JOB.NAME"), bs ("JOB.NUMBER"),
   bs ("LENGTH.UNITS"), bs ("LINE.DIRECTION"), bs ("LINE.NAME"), bs ("LINE.NUMBER"),
   bs ("LINE.SPREAD"), bs ("RX.AZIMUTH"), bs ("RX.STN"), bs ("SURVEY.ACQMETHOD"),
   bs ("SURVEY.TYPE"), bs ("TS.ADFREQ"), bs ("TS.DECFAC"), bs ("TS.NCYCLE"),
   bs ("TS.NPNT"), bs ("TS.NWAVEFORM"), bs ("TX.AMP"), bs ("TX.DUTY"),
   bs ("TX.FREQ"), bs ("TX.SHUNT"), bs ("TX.SN,NONE"), bs ("TX.STN")]

def sortedKeys : List (List Nat) :=
  bs ("CH.ADCARDSN") :: bs ("CH.CMP") :: sortedKeysRest

theorem sortLex_metaKeys : sortLex metaKeys = sortedKeys := by decide

theorem metaValue_CHCMP (md : MetaData) :
    metaValue md (bs ("CH.CMP")) = md.chCmp := rfl

/-- Every written meta value is comma-headed and newline-free once all
fourteen loop fields are comma-headed and TS.NPNT has been set. -/
theorem metaValue_shape (md : MetaData) (h : mdHead md)
    (htn : fieldHead md.tsNpnt) (k : List Nat) :
    (metaValue md k).head? = some 44 ∧ (10 : Nat) ∉ metaValue md k := by
  obtain ⟨⟨⟨d1, hd1⟩, h1⟩, ⟨⟨d2, hd2⟩, h2⟩, ⟨⟨d3, hd3⟩, h3⟩, ⟨⟨d5, hd5⟩, h5⟩,
    ⟨⟨d6, hd6⟩, h6⟩, ⟨⟨d7, hd7⟩, h7⟩, ⟨⟨d8, hd8⟩, h8⟩, ⟨⟨d9, hd9⟩, h9⟩,
    ⟨⟨d10, hd10⟩, h10⟩, ⟨⟨d11, hd11⟩, h11⟩, ⟨⟨d12, hd12⟩, h12⟩,
    ⟨⟨d13, hd13⟩, h13⟩, ⟨⟨d14, hd14⟩, h14⟩, ⟨⟨d15, hd15⟩, h15⟩⟩ := h
  obtain ⟨⟨d4, hd4⟩, h4⟩ := htn
  dsimp only [metaValue]
  by_cases e1 : k = bs ("SURVEY.ACQMETHOD")
  · rw [if_pos e1]; exact ⟨by decide, by decide⟩
  rw [if_neg e1]
  by_cases e2 : k = bs ("LENGTH.UNITS")
  · rw [if_pos e2]; exact ⟨by decide, by decide⟩
  rw [if_neg e2]
  by_cases e3 : k = bs ("DATA.DATE0")
  · rw [if_pos e3]; exact ⟨by rw [hd1]; rfl, h1⟩
  rw [if_neg e3]
  by_cases e4 : k = bs ("DATA.TIME0")
  · rw [if_pos e4]; exact ⟨by rw [hd2]; rfl, h2⟩
  rw [if_neg e4]
  by_cases e5 : k = bs ("TS.ADFREQ")
  · rw [if_pos e5]; exact ⟨by rw [hd3]; rfl, h3⟩
  rw [if_neg e5]
  by_cases e6 : k = bs ("TS.NPNT")
  · rw [if_pos e6]; exact ⟨by rw [hd4]; rfl, h4⟩
  rw [if_neg e6]
  by_cases e7 : k = bs ("CH.FACTOR")
  · rw [if_pos e7]; exact ⟨by rw [hd5]; rfl, h5⟩
  rw [if_neg e7]
  by_cases e8 : k = bs ("CH.GAIN")
  · rw [if_pos e8]; exact ⟨by rw [hd6]; rfl, h6⟩
  rw [if_neg e8]
  by_cases e9 : k = bs ("CH.NUMBER")
  · rw [if_pos e9]; exact ⟨by rw [hd14]; rfl, h14⟩
  rw [if_neg e9]
  by_cases e10 : k = bs ("CH.CMP")
  · rw [if_pos e10]; exact ⟨by rw [hd7]; rfl, h7⟩
  rw [if_neg e10]
  by_cases e11 : k = bs ("CH.LENGTH")
  · rw [if_pos e11]; exact ⟨by rw [hd8]; rfl, h8⟩
  rw [if_neg e11]
  by_cases e12 : k = bs ("CH.EXTGAIN")
  · rw [if_pos e12]; exact ⟨by rw [hd9]; rfl, h9⟩
  rw [if_neg e12]
  by_cases e13 : k = bs ("CH.NOTCH")
  · rw [if_pos e13]; exact ⟨by rw [hd10]; rfl, h10⟩
  rw [if_neg e13]
  by_cases e14 : k = bs ("CH.HIGHPASS")
  · rw [if_pos e14]; exact ⟨by rw [hd11]; rfl, h11⟩
  rw [if_neg e14]
  by_cases e15 : k = bs ("CH.LOWPASS")
  · rw [if_pos e15]; exact ⟨by rw [hd12]; rfl, h12⟩
  rw [if_neg e15]
  by_cases e16 : k = bs ("CH.ADCARDSN")
  · rw [if_pos e16]; exact ⟨by rw [hd13]; rfl, h13⟩
  rw [if_neg e16]
  by_cases e17 : k = bs ("RX.STN")
  · rw [if_pos e17]; exact ⟨by rw [hd15]; rfl, h15⟩
  rw [if_neg e17]
  exact ⟨by decide, by decide⟩

theorem dictGet_cons (p : List Nat × List (List Nat))
    (rest : List (List Nat × List (List Nat))) (key : List Nat) :
    dictGet (p :: rest) key
      = match dictGet rest key with
        | some r => some r
        | none => if p.1 = key then some p.2 else none := by
  obtain ⟨k, v⟩ := p; rfl

/-- Looking CH.CMP up in the parsed form of the written meta string
recovers exactly the comma-split of the accumulated CH.CMP value. -/
theorem parseMeta_CHCMP (md : MetaData) (h : mdHead md)
    (htn : fieldHead md.tsNpnt) (ccTail : List Nat)
    (hcc : md.chCmp = 44 :: ccTail) :
    dictGet (parseMeta (metaStr md)) (bs ("CH.CMP"))
      = some (pySplit ccTail 44) := by
  have hshape := metaValue_shape md h htn
  have hsplit : pySplit (metaStr md) 10
      = (sortedKeys.map (fun k => k ++ metaValue md k)) ++ [[]] := by
    dsimp only [metaStr]
    rw [sortLex_metaKeys]
    have hjoin := pySplit_join 10 (sortedKeys.map (fun k => k ++ metaValue md k))
      (by
        intro p hp
        rcases List.mem_map.mp hp with ⟨k, hk, rfl⟩
        intro hmem
        rcases List.mem_append.mp hmem with hm | hm
        · revert hm
          have : (10 : Nat) ∉ k := by
            revert hk
            have : ∀ k' ∈ sortedKeys, (10 : Nat) ∉ k' := by decide
            exact fun hk => this k hk
          exact this
        · exact (hshape k).2 hm)
    rw [List.map_map] at hjoin
    exact hjoin
  have hpm : parseMeta (metaStr md)
      = (sortedKeys.map (fun k => parseLine (k ++ metaValue md k)))
          ++ [([], [[]])] := by
    dsimp only [parseMeta]
    rw [hsplit, List.map_append, List.map_map]
    simp [parseLine_nil]
  have hnone : dictGet ((sortedKeysRest.map
      (fun k => parseLine (k ++ metaValue md k))) ++ [(([] : List Nat), [([] : List Nat)])])
      (bs ("CH.CMP")) = none := by
    apply dictGet_none_of
    intro p hp
    rcases List.mem_append.mp hp with hm | hm
    · rcases List.mem_map.mp hm with ⟨k, hk, rfl⟩
      obtain ⟨v', hv'⟩ : ∃ v', metaValue md k = 44 :: v' := by
        rcases hmv : metaValue md k with _ | ⟨a, t⟩
        · have := (hshape k).1; rw [hmv] at this; simp at this
        · have := (hshape k).1; rw [hmv] at this
          simp only [List.head?_cons, Option.some.injEq] at this
          exact ⟨t, by rw [this]⟩
      have hcase : ((44 : Nat) ∉ k ∧ k ≠ bs ("CH.CMP")) ∨ k = bs ("TX.SN,NONE") := by
        revert hk
        have : ∀ k' ∈ sortedKeysRest,
            ((44 : Nat) ∉ k' ∧ k' ≠ bs ("CH.CMP")) ∨ k' = bs ("TX.SN,NONE") := by
          decide
        exact fun hk => this k hk
      rcases hcase with ⟨hk44, hkne⟩ | htx
      · rw [hv', parseLine_eq k v' hk44]
        exact hkne
      · subst htx
        rw [hv']
        rw [show bs ("TX.SN,NONE") ++ 44 :: v'
            = bs ("TX.SN") ++ 44 :: (bs ("NONE") ++ 44 :: v') by simp [bs]]
        rw [parseLine_eq _ _ (by decide)]
        exact (by decide : bs ("TX.SN") ≠ bs ("CH.CMP"))
    · simp only [List.mem_singleton] at hm
      subst hm
      decide
  rw [hpm]
  show dictGet ((sortedKeys.map (fun k => parseLine (k ++ metaValue md k)))
      ++ [(([] : List Nat), [([] : List Nat)])]) (bs ("CH.CMP")) = _
  rw [show sortedKeys = bs ("CH.ADCARDSN") :: bs ("CH.CMP") :: sortedKeysRest from rfl,
      List.map_cons, List.map_cons]
  simp only [List.cons_append]
  rw [dictGet_cons, dictGet_cons, hnone]
  have heCC : parseLine (bs ("CH.CMP") ++ metaValue md (bs ("CH.CMP")))
      = (bs ("CH.CMP"), pySplit ccTail 44) := by
    rw [metaValue_CHCMP, hcc]
    exact parseLine_eq _ _ (by decide)
  rw [heCC]
  simp

/-! ## The time-series frame payload -/

theorem byteUpper_no44 (l : List Nat) (h : (44 : Nat) ∉ l) :
    (44 : Nat) ∉ l.map byteUpper := by
  intro hc
  rcases List.mem_map.mp hc with ⟨a, ha, hab⟩
  dsimp only [byteUpper] at hab
  split at hab
  · omega
  · exact h (hab ▸ ha)

theorem packRowTs_inrange (row : List Int)
    (h : ∀ v ∈ row, -2147483648 ≤ v ∧ v < 2147483648) :
    packRowTs row = (row.map encI32).flatten := by
  dsimp only [packRowTs]
  rw [if_pos h]

theorem encRows (ts : List (List Int)) :
    (ts.map (fun r => (r.map encI32).flatten)).flatten
      = ((ts.flatten).map encI32).flatten := by
  induction ts with
  | nil => rfl
  | cons r rest ih =>
    simp only [List.map_cons, List.flatten_cons, List.flatten_append, List.map_append]
    rw [ih]

theorem decI32List_append4 (q rest : List Nat) (hq : q.length = 4) :
    decI32List (q ++ rest) = decI32 q :: decI32List rest := by
  rcases q with _ | ⟨a, q⟩; · simp at hq
  rcases q with _ | ⟨b, q⟩; · simp at hq
  rcases q with _ | ⟨c, q⟩; · simp at hq
  rcases q with _ | ⟨d, q⟩; · simp at hq
  rcases q with _ | ⟨e, q⟩
  · rfl
  · simp at hq

theorem decI32List_enc :
    ∀ ws : List Int, (∀ v ∈ ws, -2147483648 ≤ v ∧ v < 2147483648) →
      decI32List ((ws.map encI32).flatten) = ws := by
  intro ws
  induction ws with
  | nil => intro _; rfl
  | cons w rest ih =>
    intro h
    simp only [List.map_cons, List.flatten_cons]
    rw [decI32List_append4 _ _ (encI32_length w),
        decI32_encI32 w (h w (by simp)).1 (h w (by simp)).2,
        ih (fun v hv => h v (by simp [hv]))]

theorem flatten_rows_length (n : Nat) :
    ∀ ts : List (List Int), (∀ r ∈ ts, r.length = n) →
      ts.flatten.length = ts.length * n := by
  intro ts
  induction ts with
  | nil => intro _; simp
  | cons r rest ih =>
    intro h
    simp only [List.flatten_cons, List.length_append, List.length_cons]
    rw [h r (by simp), ih (fun r' hr' => h r' (by simp [hr']))]
    ring

theorem chunkRows_nil (n : Nat) : chunkRows n [] = [] := by
  rw [chunkRows]

theorem chunkRows_cons (n : Nat) (x : Int) (xs : List Int) :
    chunkRows n (x :: xs)
      = if n = 0 ∨ (x :: xs).length < n then []
        else (x :: xs).take n :: chunkRows n ((x :: xs).drop n) := by
  rw [chunkRows]
  · rfl
  · intro h; exact absurd h (by simp)

theorem chunkRows_flatten (n : Nat) (hn : n ≠ 0) :
    ∀ ts : List (List Int), (∀ r ∈ ts, r.length = n) →
      chunkRows n ts.flatten = ts := by
  intro ts
  induction ts with
  | nil => intro _; simp only [List.flatten_nil]; exact chunkRows_nil n
  | cons r rest ih =>
    intro h
    have hr : r.length = n := h r (by simp)
    simp only [List.flatten_cons]
    rcases hx : r ++ rest.flatten with _ | ⟨x, xs⟩
    · exfalso
      rcases List.append_eq_nil.mp hx with ⟨h1, _⟩
      rw [h1] at hr
      simp at hr
      omega
    · have hge : n ≤ (x :: xs).length := by
        rw [← hx]; simp [List.length_append, hr]
      rw [chunkRows_cons, if_neg (not_or.mpr ⟨hn, not_lt.mpr hge⟩), ← hx,
          List.take_left' hr, List.drop_left' hr,
          ih (fun r' hr' => h r' (by simp [hr']))]

theorem mdPre_metaData0 : mdPre metaData0 :=
  ⟨⟨Or.inl rfl, by decide⟩, ⟨Or.inl rfl, by decide⟩, ⟨Or.inl rfl, by decide⟩,
   ⟨Or.inl rfl, by decide⟩, ⟨Or.inl rfl, by decide⟩, ⟨Or.inl rfl, by decide⟩,
   ⟨Or.inl rfl, by decide⟩, ⟨Or.inl rfl, by decide⟩, ⟨Or.inl rfl, by decide⟩,
   ⟨Or.inl rfl, by decide⟩, ⟨Or.inl rfl, by decide⟩, ⟨Or.inl rfl, by decide⟩,
   ⟨Or.inl rfl, by decide⟩, ⟨Or.inl rfl, by decide⟩, ⟨Or.inl rfl, by decide⟩⟩

theorem encFlat_length : ∀ ws : List Int,
    ((ws.map encI32).flatten).length = 4 * ws.length := by
  intro ws
  induction ws with
  | nil => rfl
  | cons w rest ih =>
    simp only [List.map_cons, List.flatten_cons, List.length_append,
      encI32_length, List.length_cons, ih]
    ring

theorem replicate_flatten_length (k : Nat) (l : List Nat) :
    ((List.replicate k l).flatten).length = k * l.length := by
  induction k with
  | zero => simp
  | succ n ih =>
    simp only [List.replicate_succ, List.flatten_cons, List.length_append, ih]
    ring

theorem calBlock_length : calBlock.length = 80 := by decide

theorem calData1_length : calData1.length = 2207 := by
  have h1 : (bs ("HEADER.TYPE,Calibrate\nCAL.VER,019\nCAL.SYS,0000,")).length = 47 := by
    decide
  simp only [calData1, List.length_append, replicate_flatten_length,
    calBlock_length, h1]

theorem calData_dropLast_length (n : Nat) :
    ((calData n).dropLast ++ [10]).length = (calData n).length := by
  have h1 : (calData n).length
      = calData1.length + ((List.replicate (n - 1) calData2).flatten).length := by
    simp [calData]
  have := calData1_length
  simp only [List.length_append, List.length_dropLast, List.length_singleton]
  omega

theorem write_cache_shape (chans : List ChanMeta) (ts : List (List Int))
    (hne : chans ≠ []) (hck : ∀ c ∈ chans, chanOk c)
    (hdf : ∀ c ∈ chans, ∀ c' ∈ chans, c.df = c'.df)
    (hrow : ∀ r ∈ ts, r.length = chans.length)
    (hval : ∀ r ∈ ts, ∀ v ∈ r, -2147483648 ≤ v ∧ v < 2147483648) :
    ∃ m p4 : List Nat,
      write_cache_file chans ts = .ok
        (mkFrame (((List.replicate 41 (0 : Nat)).length : Int) + 2) 4
            (List.replicate 41 0)
            (encI32 (((List.replicate 41 (0 : Nat)).length : Int) + 2))
          ++ (mkFrame ((m.length : Int) + 2) 514 m (encI32 ((m.length : Int) + 2))
          ++ (mkFrame ((((calData chans.length).dropLast ++ [10]).length : Int) + 2)
                768 ((calData chans.length).dropLast ++ [10])
                (encI32 ((((calData chans.length).dropLast ++ [10]).length : Int) + 2))
          ++ mkFrame ((p4.length : Int) + 2) 16 p4
                (encI32 ((p4.length : Int) + 2)))))
      ∧ p4 = ((ts.flatten).map encI32).flatten
      ∧ dictGet (parseMeta m) (bs ("CH.CMP"))
          = some (chans.map (fun c => c.ch_cmp.map byteUpper)) := by
  obtain ⟨md0, hbuild, hpre0, hcmp0, hnpnt0, hhead0, _⟩ :=
    buildMeta_spec chans hck metaData0 mdPre_metaData0
  rcases chans with _ | ⟨c0, rest⟩
  · exact absurd rfl hne
  have hp4 : (ts.map packRowTs).flatten = ((ts.flatten).map encI32).flatten := by
    rw [← encRows]
    congr 1
    exact List.map_congr_left (fun r hr => packRowTs_inrange r (hval r hr))
  have hsamp : ((c0 :: rest).any (fun c => decide (c.df ≠ c0.df))) = false := by
    rw [List.any_eq_false]
    intro c hc
    simp [hdf c hc c0 (by simp)]
  refine ⟨metaStr { md0 with tsNpnt := 44 :: natDec ts.length },
    (ts.map packRowTs).flatten, ?_, hp4, ?_⟩
  · simp only [write_cache_file]
    rw [hbuild, excBind_ok]
    rw [hsamp]
    rw [if_neg (by simp)]
    rw [excPure]
    refine congrArg Except.ok ?_
    rw [show (((List.replicate 41 (0 : Nat)).length : Int) + 2) = (43 : Int) by simp]
    have hB : ((((calData (c0 :: rest).length).dropLast ++ [10]).length : Nat))
        = (((calData (c0 :: rest).length).length : Nat)) := calData_dropLast_length _
    have hC : (((ts.map packRowTs).flatten.length : Nat))
        = ((ts.length * (c0 :: rest).length * 4 : Nat)) := by
      rw [hp4, encFlat_length,
          flatten_rows_length (c0 :: rest).length ts hrow]
      ring
    simp only [hB, hC, mkFrame, List.append_assoc]
  · have hccfield : ({ md0 with tsNpnt := 44 :: natDec ts.length } : MetaData).chCmp
        = 44 :: ((c0.ch_cmp.map byteUpper)
            ++ ((rest.map (fun c => 44 :: c.ch_cmp.map byteUpper)).flatten)) := by
      show md0.chCmp = _
      rw [hcmp0, show metaData0.chCmp = [] from rfl]
      simp
    have hhead : mdHead ({ md0 with tsNpnt := 44 :: natDec ts.length } : MetaData) :=
      hhead0 (by simp)
    have htn : fieldHead ({ md0 with tsNpnt := 44 :: natDec ts.length } : MetaData).tsNpnt := by
      refine ⟨⟨_, rfl⟩, ?_⟩
      intro hm
      rcases List.mem_cons.mp hm with h | h
      · omega
      · have := natDec_digits ts.length _ h; omega
    rw [parseMeta_CHCMP _ hhead htn _ hccfield]
    have hrw : rest.map (fun c => 44 :: c.ch_cmp.map byteUpper)
        = (rest.map (fun c => c.ch_cmp.map byteUpper)).map (fun y => 44 :: y) := by
      rw [List.map_map]; rfl
    rw [hrw, pySplit_comma_chain _ _
        (byteUpper_no44 _ (hck c0 (by simp)).2.2.2.2.1)
        (by
          intro y hy
          rcases List.mem_map.mp hy with ⟨c, hc, rfl⟩
          exact byteUpper_no44 _ (hck c (by simp [hc])).2.2.2.2.1)]
    simp

/-- C1: round-trip.  For every aligned sample matrix (`ts_len` samples by
`n_fn` channels, every value in the signed 32-bit range) and per-channel
metadata accepted by the write path (nonempty channel list, equal
sampling rates drawn from the lowpass table, text fields free of
newlines, component names free of commas, date_time containing the
date,time comma, and a total file size that fits the int32 length
fields), parsing the bytes produced by write_cache_file with read_cache
succeeds and yields a sample matrix identical to the input and the same
channel count. -/
theorem cache_roundtrip (chans : List ChanMeta) (ts : List (List Int))
    (out : List Nat)
    (hne : chans ≠ []) (hck : ∀ c ∈ chans, chanOk c)
    (hdf : ∀ c ∈ chans, ∀ c' ∈ chans, c.df = c'.df)
    (hrow : ∀ r ∈ ts, r.length = chans.length)
    (hval : ∀ r ∈ ts, ∀ v ∈ r, -2147483648 ≤ v ∧ v < 2147483648)
    (hw : write_cache_file chans ts = .ok out)
    (hsz : out.length ≤ 2147483647) :
    ∃ res : CacheResult, read_cache out = .ok res ∧ res.ts = ts
      ∧ res.num_chn = chans.length := by
  obtain ⟨m, p4, hshape, hp4enc, hdict⟩ :=
    write_cache_shape chans ts hne hck hdf hrow hval
  rw [hw] at hshape
  have hout := Except.ok.inj hshape
  subst hout
  have hnchn : chans.length ≠ 0 := fun hc => hne (List.length_eq_zero.mp hc)
  have hlen : (mkFrame (((List.replicate 41 (0 : Nat)).length : Int) + 2) 4
        (List.replicate 41 0)
        (encI32 (((List.replicate 41 (0 : Nat)).length : Int) + 2))
      ++ (mkFrame ((m.length : Int) + 2) 514 m (encI32 ((m.length : Int) + 2))
      ++ (mkFrame ((((calData chans.length).dropLast ++ [10]).length : Int) + 2)
            768 ((calData chans.length).dropLast ++ [10])
            (encI32 ((((calData chans.length).dropLast ++ [10]).length : Int) + 2))
      ++ mkFrame ((p4.length : Int) + 2) 16 p4
            (encI32 ((p4.length : Int) + 2))))).length
      = 97 + m.length + ((calData chans.length).dropLast ++ [10]).length
          + p4.length := by
    simp only [mkFrame, List.length_append, encI32_length, encI16_length,
      List.length_replicate]
    omega
  rw [hlen] at hsz
  have hdec : decI32List p4 = ts.flatten := by
    rw [hp4enc]
    exact decI32List_enc ts.flatten (fun v hv => by
      rcases List.mem_flatten.mp hv with ⟨r, hr, hvr⟩
      exact hval r hr v hvr)
  have hmod : p4.length % 4 = 0 := by
    rw [hp4enc, encFlat_length]
    omega
  have hcnt : (decI32List p4).length % (chans.map (fun c => c.ch_cmp.map byteUpper)).length = 0 := by
    rw [hdec, List.length_map, flatten_rows_length chans.length ts hrow,
        Nat.mul_mod_left]
  refine ⟨⟨(List.replicate 41 (0 : Nat)).map byteToI8, parseMeta m,
      (calData chans.length).dropLast ++ [10],
      chunkRows (chans.map (fun c => c.ch_cmp.map byteUpper)).length (decI32List p4),
      (chans.map (fun c => c.ch_cmp.map byteUpper)).length⟩, ?_, ?_, ?_⟩
  · rw [read_cache_container (List.replicate 41 0) m
        ((calData chans.length).dropLast ++ [10]) p4 _ _ _ _ 4 514 768 16
        (chans.map (fun c => c.ch_cmp.map byteUpper))
        (encI32_length _) (encI32_length _) (encI32_length _) (encI32_length _)
        (by simp) (by omega) (by omega) (by omega)
        hdict
        (fun hc => hne (List.map_eq_nil_iff.mp hc))
        hmod]
    rw [if_neg (not_ne_iff.mpr (decI32_encI32 _ (by omega) (by simp))),
        if_neg (not_ne_iff.mpr (decI32_encI32 _ (by omega) (by omega))),
        if_neg (not_ne_iff.mpr (decI32_encI32 _ (by omega) (by omega))),
        if_neg (by omega),
        if_neg (not_ne_iff.mpr (decI32_encI32 _ (by omega) (by omega)))]
  · show chunkRows _ _ = ts
    rw [hdec, List.length_map]
    exact chunkRows_flatten chans.length hnchn ts hrow
  · exact List.length_map _ _

/-- A concrete single-channel file for exercising the cache codec. -/
def wChan : ChanMeta :=
  { date_time0 := bs ("2013-01-01,00:00:00"), df := 256, ch_cmp := bs ("ex"),
    ch_length := bs ("100"), ch_adcard_sn := bs ("1234"), ch_number := bs ("1"),
    rx_stn := bs ("mt01") }

def exOkBytes : Except PyExc (List Nat) → List Nat
  | .ok o => o
  | .error _ => []

/-- The bytes written for the one-channel, two-sample matrix [[5], [-7]]. -/
def wOut : List Nat := exOkBytes (write_cache_file [wChan] [[5], [-7]])

/-- The meta_data record after processing the single concrete channel and
setting TS.NPNT. -/
def wMd : MetaData :=
  match buildMeta metaData0 [wChan] with
  | .ok md => { md with tsNpnt := 44 :: natDec 2 }
  | .error _ => metaData0

theorem wOut_eq : wOut
    = encI32 43 ++ encI32 (-1) ++ encI16 4 ++ List.replicate 41 0 ++ encI32 43
      ++ encI32 (((metaStr wMd).length : Int) + 2) ++ encI32 (-1) ++ encI16 514
        ++ metaStr wMd ++ encI32 (((metaStr wMd).length : Int) + 2)
      ++ encI32 (((calData 1).length : Int) + 2) ++ encI32 (-1) ++ encI16 768
        ++ ((calData 1).dropLast ++ [10]) ++ encI32 (((calData 1).length : Int) + 2)
      ++ encI32 ((2 * 1 * 4 : Nat) + 2) ++ encI32 (-1) ++ encI16 16
        ++ (([[5], [-7]] : List (List Int)).map packRowTs).flatten
        ++ encI32 ((2 * 1 * 4 : Nat) + 2) := rfl

theorem wMeta_length_le : (metaStr wMd).length ≤ 1000 := by decide

theorem wOut_length_le : wOut.length ≤ 2147483647 := by
  rw [wOut_eq]
  have h1 : (calData 1).length = 2207 := by
    simp [calData, calData1_length]
  have h2 := wMeta_length_le
  have h3 : ((([[5], [-7]] : List (List Int)).map packRowTs).flatten).length = 8 := by
    decide
  simp only [List.length_append, encI32_length, encI16_length,
    List.length_replicate, List.length_dropLast, List.length_singleton, h1, h3]
  omega

theorem cache_roundtrip_witness :
    ∃ res : CacheResult, read_cache wOut = .ok res ∧ res.ts = [[5], [-7]]
      ∧ res.num_chn = [wChan].length :=
  cache_roundtrip [wChan] [[5], [-7]] wOut (by decide) (by decide) (by decide)
    (by decide) (by decide) rfl wOut_length_le

/-- C9: on container read, when the flat sample count recovered from the
time-series frame is not evenly divisible by the channel count recovered
from the metadata frame's CH.CMP list, read_cache fails with the reshape
FormatIntegrityError (all four trailing length fields agree, so the
failure is the reshape itself, which precedes the final length check). -/
theorem read_cache_reshape_indivisible
    (p1 p2 p3 p4 : List Nat) (comps : List (List Nat))
    (hb1 : (p1.length : Int) + 2 < 2147483648)
    (hb2 : (p2.length : Int) + 2 < 2147483648)
    (hb3 : (p3.length : Int) + 2 < 2147483648)
    (hb4 : (p4.length : Int) + 2 < 2147483648)
    (hcc : dictGet (parseMeta p2) (bs ("CH.CMP")) = some comps)
    (hnz : comps ≠ [])
    (hmod : p4.length % 4 = 0)
    (hndiv : (decI32List p4).length % comps.length ≠ 0) :
    read_cache (mkFrame ((p1.length : Int) + 2) 4 p1
          (encI32 ((p1.length : Int) + 2))
        ++ (mkFrame ((p2.length : Int) + 2) 514 p2
          (encI32 ((p2.length : Int) + 2))
        ++ (mkFrame ((p3.length : Int) + 2) 768 p3
          (encI32 ((p3.length : Int) + 2))
        ++ mkFrame ((p4.length : Int) + 2) 16 p4
          (encI32 ((p4.length : Int) + 2)))))
      = .error .reshapeError ∧ isFormatIntegrityError .reshapeError := by
  constructor
  · rw [read_cache_container p1 p2 p3 p4 _ _ _ _ 4 514 768 16 comps
        (encI32_length _) (encI32_length _) (encI32_length _) (encI32_length _)
        hb1 hb2 hb3 hb4 hcc hnz hmod]
    rw [if_neg (not_ne_iff.mpr (decI32_encI32 _ (by omega) hb1)),
        if_neg (not_ne_iff.mpr (decI32_encI32 _ (by omega) hb2)),
        if_neg (not_ne_iff.mpr (decI32_encI32 _ (by omega) hb3)),
        if_pos hndiv]
  · decide

theorem read_cache_reshape_indivisible_witness :
    read_cache (mkFrame 2 4 [] (encI32 2)
        ++ (mkFrame 14 514 (bs ("CH.CMP,ex,ey")) (encI32 14)
        ++ (mkFrame 2 768 [] (encI32 2)
        ++ mkFrame 6 16 [1, 0, 0, 0] (encI32 6))))
      = .error .reshapeError ∧ isFormatIntegrityError .reshapeError :=
  read_cache_reshape_indivisible [] (bs ("CH.CMP,ex,ey")) [] [1, 0, 0, 0]
    [bs ("ex"), bs ("ey")] (by decide) (by decide) (by decide) (by decide)
    (by decide) (by decide) (by decide) (by decide)

/-- C2: for every four-frame container (well-formed frame skeleton,
parsable metadata, word-aligned time-series payload) in which some
frame's trailing length field disagrees with that frame's leading length
field — in particular one obtained from a well-formed file by flipping a
byte of a trailing field, which changes its decoded value — read_cache
fails with a FormatIntegrityError instead of returning data. -/
theorem read_cache_trailing_mismatch
    (p1 p2 p3 p4 t1 t2 t3 t4 : List Nat) (ty1 ty2 ty3 ty4 : Int)
    (comps : List (List Nat))
    (ht1 : t1.length = 4) (ht2 : t2.length = 4) (ht3 : t3.length = 4)
    (ht4 : t4.length = 4)
    (hb1 : (p1.length : Int) + 2 < 2147483648)
    (hb2 : (p2.length : Int) + 2 < 2147483648)
    (hb3 : (p3.length : Int) + 2 < 2147483648)
    (hb4 : (p4.length : Int) + 2 < 2147483648)
    (hcc : dictGet (parseMeta p2) (bs ("CH.CMP")) = some comps)
    (hnz : comps ≠ [])
    (hmod : p4.length % 4 = 0)
    (hdis : decI32 t1 ≠ (p1.length : Int) + 2 ∨ decI32 t2 ≠ (p2.length : Int) + 2
      ∨ decI32 t3 ≠ (p3.length : Int) + 2 ∨ decI32 t4 ≠ (p4.length : Int) + 2) :
    ∃ e, read_cache (mkFrame ((p1.length : Int) + 2) ty1 p1 t1
        ++ (mkFrame ((p2.length : Int) + 2) ty2 p2 t2
        ++ (mkFrame ((p3.length : Int) + 2) ty3 p3 t3
        ++ mkFrame ((p4.length : Int) + 2) ty4 p4 t4)))
      = .error e ∧ isFormatIntegrityError e := by
  rw [read_cache_container p1 p2 p3 p4 t1 t2 t3 t4 ty1 ty2 ty3 ty4 comps
      ht1 ht2 ht3 ht4 hb1 hb2 hb3 hb4 hcc hnz hmod]
  by_cases c1 : decI32 t1 ≠ (p1.length : Int) + 2
  · exact ⟨.ioNavLen, by rw [if_pos c1], by decide⟩
  rw [if_neg c1]
  by_cases c2 : decI32 t2 ≠ (p2.length : Int) + 2
  · exact ⟨.ioMetaLen, by rw [if_pos c2], by decide⟩
  rw [if_neg c2]
  by_cases c3 : decI32 t3 ≠ (p3.length : Int) + 2
  · exact ⟨.ioCalLen, by rw [if_pos c3], by decide⟩
  rw [if_neg c3]
  by_cases cr : (decI32List p4).length % comps.length ≠ 0
  · exact ⟨.reshapeError, by rw [if_pos cr], by decide⟩
  rw [if_neg cr]
  by_cases c4 : decI32 t4 ≠ (p4.length : Int) + 2
  · exact ⟨.ioTsLen, by rw [if_pos c4], by decide⟩
  rcases hdis with h | h | h | h
  · exact absurd h c1
  · exact absurd h c2
  · exact absurd h c3
  · exact absurd h c4

theorem read_cache_trailing_mismatch_witness :
    ∃ e, read_cache (mkFrame 2 4 [] (encI32 99)
        ++ (mkFrame 14 514 (bs ("CH.CMP,ex,ey")) (encI32 14)
        ++ (mkFrame 2 768 [] (encI32 2)
        ++ mkFrame 10 16 [1, 0, 0, 0, 2, 0, 0, 0] (encI32 10))))
      = .error e ∧ isFormatIntegrityError e :=
  read_cache_trailing_mismatch [] (bs ("CH.CMP,ex,ey")) []
    [1, 0, 0, 0, 2, 0, 0, 0] (encI32 99) (encI32 14) (encI32 2) (encI32 10)
    4 514 768 16 [bs ("ex"), bs ("ey")]
    (by decide) (by decide) (by decide) (by decide)
    (by decide) (by decide) (by decide) (by decide)
    (by decide) (by decide) (by decide) (Or.inl (by decide))

/-! ## Zen3D.get_date_time and the scheduled-start search of read_3d
(ZenTools.py lines 272-309, 643-685) -/

/-- Gregorian civil date from days since 1970-01-01 (the arithmetic
performed by `time.gmtime`): returns (year, month, day). -/
def civilFromDays (z : Int) : Int × Nat × Nat :=
  let z2 := z + 719468
  let era : Int := Int.fdiv z2 146097
  let doe : Nat := (z2 - era * 146097).toNat
  let yoe : Nat := (doe - doe / 1460 + doe / 36524 - doe / 146096) / 365
  let doy : Nat := doe - (365 * yoe + yoe / 4 - yoe / 100)
  let mp : Nat := (5 * doy + 2) / 153
  let d : Nat := doy - (153 * mp + 2) / 5 + 1
  let m : Nat := if mp < 10 then mp + 3 else mp - 9
  ((yoe : Int) + era * 400 + (if m ≤ 2 then 1 else 0), m, d)

/-- `%Y`: the year zero-padded to four digits. -/
def fmt04 (n : Nat) : List Nat :=
  List.replicate (4 - (natDec n).length) 48 ++ natDec n

/-- `time.mktime(self._gps_epoch) - time.timezone`: the GPS epoch
1980-01-06 00:00:00 UTC in Unix seconds. -/
def gps_epoch_seconds : Int := 315964800

/-- `Zen3D.get_date_time(gps_week, gps_time)` (lines 643-685) for the
integer `gps_time` stored in the stamp's int32 time field: seconds =
epoch + week*604800 + time - leap_seconds(16), rendered by
`time.strftime('%Y-%m-%d,%H:%M:%S', time.gmtime(...))` (the `mseconds`
fraction of an integer time is zero). -/
def get_date_time (gps_week : Int) (gps_time : Int) : List Nat :=
  let gps_seconds : Int := gps_epoch_seconds + gps_week * 604800 + gps_time - 16
  let days : Int := Int.fdiv gps_seconds 86400
  let sod : Nat := (gps_seconds - days * 86400).toNat
  let ymd := civilFromDays days
  fmt04 ymd.1.toNat ++ [45] ++ fmt02 ymd.2.1 ++ [45] ++ fmt02 ymd.2.2 ++ [44]
    ++ fmt02 (sod / 3600) ++ [58] ++ fmt02 (sod % 3600 / 60) ++ [58]
    ++ fmt02 (sod % 60)

/-- Lines 296-297: `self.start_dt = self.start_dt[:-2] +
'{0:02}'.format(int(self.start_dt[-2:]) + 1)` — nudge the scheduled
start one second forward at the string level. -/
def nudge (sd : List Nat) : Except PyExc (List Nat) := do
  let n ← parseDigits (pySlice sd (-2) (sd.length : Int))
  pure (pySlice sd 0 (-2) ++ fmt02 (n + 1))

def searchFuel : Nat := 1000000

/-- The while loop of lines 282-299.  State: current `start_test`,
current `start_dt`, current `gps_lst[0]`, `s1`, `time_stop`.  Each pass:
bump `s1`, scan for the next marker seven bytes on, decode the stamp
there (an empty record array later raises TypeError inside gmtime),
recompute `start_test`; when `s1` hits `_seconds_diff` (5), reset `s1`,
nudge `start_dt`, rescan from the file start and bump `time_stop`. -/
def startSearch (raw : List Nat) (week : Int) :
    Nat → List Nat → List Nat → Int → Nat → Nat →
    Except PyExc (List Nat × List Nat × Int × Nat × Nat)
  | 0, _, _, _, _, _ => .error .fuelExhausted
  | fuel + 1, start_test, start_dt, g0, s1, time_stop =>
    if start_test ≠ start_dt ∧ s1 ≤ 5 ∧ time_stop ≤ 5 then do
      let g1 ← get_gps_stamp_location raw (some (g0 + 7))
      let gi ← decodeStampAt raw g1
      match gi with
      | none => throw .typeError
      | some info =>
        let st := get_date_time week info.time
        if s1 + 1 = 5 then do
          let sd ← nudge start_dt
          let g2 ← get_gps_stamp_location raw none
          startSearch raw week fuel st sd g2 0 (time_stop + 1)
        else startSearch raw week fuel st start_dt g1 (s1 + 1) time_stop
    else pure (start_test, start_dt, g0, s1, time_stop)

/-- Lines 272-309 of read_3d: locate and decode the first stamp, compare
its date-time against the scheduled start with the bounded retry loop,
and raise ZenGPSError (reporting the nudged schedule, the last estimate
`start_test`, and the ±`_seconds_diff` window) when `time_stop` reaches
the bound. -/
def read3d_start_search (raw : List Nat) (week : Int) (start_dt : List Nat) :
    Except PyExc (List Nat × List Nat × Int × Nat × Nat) := do
  let g0 ← get_gps_stamp_location raw none
  let gi ← decodeStampAt raw g0
  match gi with
  | none => throw .typeError
  | some info =>
    let start_test := get_date_time week info.time
    let res ← startSearch raw week searchFuel start_test start_dt g0 0 0
    if 5 ≤ res.2.2.2.2 then throw (.gpsTiming res.2.1 res.1 5)
    else pure res

theorem searchStep_mid (raw : List Nat) (week : Int) (f : Nat)
    (st sd : List Nat) (gcur gnext : Int) (infoN : GpsInfo) (s1 t : Nat)
    (hcond : st ≠ sd) (hs1 : s1 ≤ 5) (ht : t ≤ 5)
    (hscan : get_gps_stamp_location raw (some (gcur + 7)) = .ok gnext)
    (hdec : decodeStampAt raw gnext = .ok (some infoN))
    (hfive : s1 + 1 ≠ 5) :
    startSearch raw week (f + 1) st sd gcur s1 t
      = startSearch raw week f (get_date_time week infoN.time) sd gnext
          (s1 + 1) t := by
  simp only [startSearch]
  rw [if_pos ⟨hcond, hs1, ht⟩, hscan, excBind_ok, hdec, excBind_ok]
  simp only []
  rw [if_neg hfive]

theorem searchStep_nudge (raw : List Nat) (week : Int) (f : Nat)
    (st sd sd' : List Nat) (gcur gnext gfresh : Int) (infoN : GpsInfo) (t : Nat)
    (hcond : st ≠ sd) (ht : t ≤ 5)
    (hscan : get_gps_stamp_location raw (some (gcur + 7)) = .ok gnext)
    (hdec : decodeStampAt raw gnext = .ok (some infoN))
    (hnudge : nudge sd = .ok sd')
    (hscan0 : get_gps_stamp_location raw none = .ok gfresh) :
    startSearch raw week (f + 1) st sd gcur 4 t
      = startSearch raw week f (get_date_time week infoN.time) sd' gfresh
          0 (t + 1) := by
  simp only [startSearch]
  rw [if_pos ⟨hcond, by omega, ht⟩, hscan, excBind_ok, hdec, excBind_ok]
  simp only []
  rw [if_pos trivial, hnudge, excBind_ok, hscan0, excBind_ok]

theorem searchRound (raw : List Nat) (week : Int) (g : Nat → Nat)
    (info : Nat → GpsInfo)
    (hscan0 : get_gps_stamp_location raw none = .ok ((g 0 : Nat) : Int))
    (hscan : ∀ k, k < 5 →
      get_gps_stamp_location raw (some (((g k : Nat) : Int) + 7))
        = .ok ((g (k + 1) : Nat) : Int))
    (hdec : ∀ k, k ≤ 5 → decodeStampAt raw ((g k : Nat) : Int) = .ok (some (info k)))
    (f : Nat) (st sd sd' : List Nat) (t : Nat)
    (hst : st ≠ sd)
    (hne : ∀ k, k ≤ 5 → get_date_time week (info k).time ≠ sd)
    (hnudge : nudge sd = .ok sd') (ht : t ≤ 5) :
    startSearch raw week (f + 5) st sd ((g 0 : Nat) : Int) 0 t
      = startSearch raw week f (get_date_time week (info 5).time) sd'
          ((g 0 : Nat) : Int) 0 (t + 1) :=
  calc startSearch raw week (f + 5) st sd ((g 0 : Nat) : Int) 0 t
      = startSearch raw week (f + 4) (get_date_time week (info 1).time) sd
          ((g 1 : Nat) : Int) 1 t :=
        searchStep_mid raw week (f + 4) st sd _ _ (info 1) 0 t hst (by omega) ht
          (hscan 0 (by omega)) (hdec 1 (by omega)) (by omega)
    _ = startSearch raw week (f + 3) (get_date_time week (info 2).time) sd
          ((g 2 : Nat) : Int) 2 t :=
        searchStep_mid raw week (f + 3) _ sd _ _ (info 2) 1 t
          (hne 1 (by omega)) (by omega) ht
          (hscan 1 (by omega)) (hdec 2 (by omega)) (by omega)
    _ = startSearch raw week (f + 2) (get_date_time week (info 3).time) sd
          ((g 3 : Nat) : Int) 3 t :=
        searchStep_mid raw week (f + 2) _ sd _ _ (info 3) 2 t
          (hne 2 (by omega)) (by omega) ht
          (hscan 2 (by omega)) (hdec 3 (by omega)) (by omega)
    _ = startSearch raw week (f + 1) (get_date_time week (info 4).time) sd
          ((g 4 : Nat) : Int) 4 t :=
        searchStep_mid raw week (f + 1) _ sd _ _ (info 4) 3 t
          (hne 3 (by omega)) (by omega) ht
          (hscan 3 (by omega)) (hdec 4 (by omega)) (by omega)
    _ = startSearch raw week f (get_date_time week (info 5).time) sd'
          ((g 0 : Nat) : Int) 0 (t + 1) :=
        searchStep_nudge raw week f _ sd sd' _ _ _ (info 5) t
          (hne 4 (by omega)) ht
          (hscan 4 (by omega)) (hdec 5 (by omega)) hnudge hscan0

/-- C8: when every stamp reached by advancing through successive markers
(five inner retries per round) decodes to a date-time that matches none
of the scheduled starts tried (the original and its first five
one-second nudges), the start search exhausts the outer bound and
read_3d raises the GPS timing error reporting the final nudged schedule,
the last timing estimate found, and the ±5-second tolerance window. -/
theorem read3d_gps_timing (raw : List Nat) (week : Int) (start_dt : List Nat)
    (g : Nat → Nat) (info : Nat → GpsInfo) (sds : List (List Nat))
    (hscan0 : get_gps_stamp_location raw none = .ok ((g 0 : Nat) : Int))
    (hscan : ∀ k, k < 5 →
      get_gps_stamp_location raw (some (((g k : Nat) : Int) + 7))
        = .ok ((g (k + 1) : Nat) : Int))
    (hdec : ∀ k, k ≤ 5 → decodeStampAt raw ((g k : Nat) : Int) = .ok (some (info k)))
    (hlen : sds.length = 7) (hhead : sds.head? = some start_dt)
    (hchain : ∀ j, j < 6 → nudge (sds.getD j []) = .ok (sds.getD (j + 1) []))
    (hne : ∀ k, k ≤ 5 → ∀ sd ∈ sds.take 6, get_date_time week (info k).time ≠ sd) :
    read3d_start_search raw week start_dt
      = .error (.gpsTiming (sds.getD 6 [])
          (get_date_time week (info 5).time) 5) := by
  rcases sds with _ | ⟨a0, sds⟩; · simp at hlen
  rcases sds with _ | ⟨a1, sds⟩; · simp at hlen
  rcases sds with _ | ⟨a2, sds⟩; · simp at hlen
  rcases sds with _ | ⟨a3, sds⟩; · simp at hlen
  rcases sds with _ | ⟨a4, sds⟩; · simp at hlen
  rcases sds with _ | ⟨a5, sds⟩; · simp at hlen
  rcases sds with _ | ⟨a6, sds⟩; · simp at hlen
  rcases sds with _ | ⟨a7, sds⟩
  swap
  · simp at hlen
  simp only [List.head?_cons, Option.some.injEq] at hhead
  subst hhead
  have h01 : nudge a0 = .ok a1 := hchain 0 (by omega)
  have h12 : nudge a1 = .ok a2 := hchain 1 (by omega)
  have h23 : nudge a2 = .ok a3 := hchain 2 (by omega)
  have h34 : nudge a3 = .ok a4 := hchain 3 (by omega)
  have h45 : nudge a4 = .ok a5 := hchain 4 (by omega)
  have h56 : nudge a5 = .ok a6 := hchain 5 (by omega)
  have hmem : ∀ x ∈ [a0, a1, a2, a3, a4, a5],
      x ∈ ([a0, a1, a2, a3, a4, a5, a6] : List (List Nat)).take 6 := by
    intro x hx; simpa using hx
  have hneAt : ∀ j ∈ [a0, a1, a2, a3, a4, a5], ∀ k, k ≤ 5 →
      get_date_time week (info k).time ≠ j :=
    fun j hj k hk => hne k hk j (hmem j hj)
  have hrun : startSearch raw week searchFuel
      (get_date_time week (info 0).time) a0 ((g 0 : Nat) : Int) 0 0
      = .ok (get_date_time week (info 5).time, a6, ((g 0 : Nat) : Int), 0, 6) :=
    calc startSearch raw week searchFuel (get_date_time week (info 0).time) a0
            ((g 0 : Nat) : Int) 0 0
        = startSearch raw week 999995
            (get_date_time week (info 5).time) a1 ((g 0 : Nat) : Int) 0 1 :=
          searchRound raw week g info hscan0 hscan hdec 999995 _ a0 a1 0
            (hneAt a0 (by simp) 0 (by omega))
            (fun k hk => hneAt a0 (by simp) k hk) h01 (by omega)
      _ = startSearch raw week 999990
            (get_date_time week (info 5).time) a2 ((g 0 : Nat) : Int) 0 2 :=
          searchRound raw week g info hscan0 hscan hdec 999990 _ a1 a2 1
            (hneAt a1 (by simp) 5 (by omega))
            (fun k hk => hneAt a1 (by simp) k hk) h12 (by omega)
      _ = startSearch raw week 999985
            (get_date_time week (info 5).time) a3 ((g 0 : Nat) : Int) 0 3 :=
          searchRound raw week g info hscan0 hscan hdec 999985 _ a2 a3 2
            (hneAt a2 (by simp) 5 (by omega))
            (fun k hk => hneAt a2 (by simp) k hk) h23 (by omega)
      _ = startSearch raw week 999980
            (get_date_time week (info 5).time) a4 ((g 0 : Nat) : Int) 0 4 :=
          searchRound raw week g info hscan0 hscan hdec 999980 _ a3 a4 3
            (hneAt a3 (by simp) 5 (by omega))
            (fun k hk => hneAt a3 (by simp) k hk) h34 (by omega)
      _ = startSearch raw week 999975
            (get_date_time week (info 5).time) a5 ((g 0 : Nat) : Int) 0 5 :=
          searchRound raw week g info hscan0 hscan hdec 999975 _ a4 a5 4
            (hneAt a4 (by simp) 5 (by omega))
            (fun k hk => hneAt a4 (by simp) k hk) h45 (by omega)
      _ = startSearch raw week 999970
            (get_date_time week (info 5).time) a6 ((g 0 : Nat) : Int) 0 6 :=
          searchRound raw week g info hscan0 hscan hdec 999970 _ a5 a6 5
            (hneAt a5 (by simp) 5 (by omega))
            (fun k hk => hneAt a5 (by simp) k hk) h56 (by omega)
      _ = .ok (get_date_time week (info 5).time, a6, ((g 0 : Nat) : Int), 0, 6) := by
          rw [show (999970 : Nat) = 999969 + 1 from rfl]
          rw [startSearch]
          rw [if_neg (fun hc => absurd hc.2.2 (by norm_num)), excPure]
  simp only [read3d_start_search]
  rw [hscan0, excBind_ok, hdec 0 (by omega), excBind_ok]
  simp only []
  rw [hrun, excBind_ok]
  simp only []
  rw [if_pos (by norm_num), excThrow]
  rfl

/-- A file of six stamp blocks: marker plus 32 zero bytes each. -/
def wRaw : List Nat := (List.replicate 6 (gps_stamp ++ List.replicate 32 0)).flatten

/-- The record decoded from each zero-payload block: gps = int32 of the
marker = -1, time = 0 through the float32/get_gps_time round trip, zero
floats elsewhere. -/
def wInfo : GpsInfo := ⟨-1, 0, .finite 0, .finite 0, 0, 0, .finite 0⟩

theorem wRaw_block : ∀ k, k ≤ 5 →
    pySlice wRaw ((36 * k : Nat) : Int) (((36 * k : Nat) : Int) + 36)
      = gps_stamp ++ List.replicate 32 0 := by decide

theorem wRaw_decode : ∀ k, k ≤ 5 →
    decodeStampAt wRaw ((36 * k : Nat) : Int) = .ok (some wInfo) := by
  have h1 : decI32 (((gps_stamp ++ List.replicate 32 (0 : Nat)).drop 4).take 4)
      = 0 := by decide
  have h2 : qTrunc (f32ofInt 0) = 0 := by
    simp [f32ofInt, f32ofNat, qTrunc]
  have h3 : i32cast 0 = 0 := by decide
  have h4 : get_gps_time ((0 : Int) : ℚ) 0 = 0 := by
    simp [get_gps_time, week_len]
  have h5 : qTrunc 0 = 0 := by simp [qTrunc]
  have hf64 : decodeF64 (List.replicate 8 (0 : Nat)) = .finite 0 := by
    norm_num [decodeF64, leNat, List.replicate]
  have hf32 : decodeF32 (List.replicate 4 (0 : Nat)) = .finite 0 := by
    norm_num [decodeF32, leNat, List.replicate]
  intro k hk
  simp only [decodeStampAt]
  rw [wRaw_block k hk, if_neg (by decide), if_neg (by decide),
      h1, h2, h3, h4, h5, h3]
  rw [show List.take 8 (List.drop 8 (gps_stamp ++ List.replicate 32 (0 : Nat)))
        = List.replicate 8 0 from by decide,
      show List.take 8 (List.drop 16 (gps_stamp ++ List.replicate 32 (0 : Nat)))
        = List.replicate 8 0 from by decide,
      show List.take 4 (List.drop 32 (gps_stamp ++ List.replicate 32 (0 : Nat)))
        = List.replicate 4 0 from by decide,
      hf64, hf32]
  decide

def wSds : List (List Nat) :=
  [bs ("2013-01-01,00:00:00"), bs ("2013-01-01,00:00:01"),
   bs ("2013-01-01,00:00:02"), bs ("2013-01-01,00:00:03"),
   bs ("2013-01-01,00:00:04"), bs ("2013-01-01,00:00:05"),
   bs ("2013-01-01,00:00:06")]

theorem read3d_gps_timing_witness :
    read3d_start_search wRaw 1721 (bs ("2013-01-01,00:00:00"))
      = .error (.gpsTiming (wSds.getD 6 []) (get_date_time 1721 wInfo.time) 5) :=
  read3d_gps_timing wRaw 1721 (bs ("2013-01-01,00:00:00"))
    (fun k => 36 * k) (fun _ => wInfo) wSds
    (by decide) (by decide) wRaw_decode (by decide) (by decide) (by decide)
    (by decide)

end ZenTools
